import Mathlib

/-!
Verification of the mcp-gdb debugger-gateway core against its specification.

The definitions below are a shallow embedding of the C sources:
  - `src/src/gdb-enums.c` / `src/mcp-gdb/gdb-enums.h` (enumerations),
  - `src/src/gdb-mi-parser.c` (the GDB/MI line parser),
  - `src/src/gdb-session.c` (the command pipeline of one session),
  - `src/src/gdb-session-manager.c` (the session registry),
  - `src/src/tools/gdb-tools-common.c` (the synchronous bridge).

Strings are modelled as Lean `String` / `List Char`; the C `guint` /
`guint64` arithmetic is modelled as `Nat` with explicit `% 2 ^ 32` /
`% 2 ^ 64` where wraparound matters.  C functions keep their source
names where Lean allows it.
-/

set_option autoImplicit false

namespace McpGdb

/-! ## Enumerations (gdb-enums.h / gdb-enums.c) -/

/-- `GdbSessionState` from gdb-enums.h. -/
inductive GdbSessionState where
  | disconnected
  | starting
  | ready
  | running
  | stopped
  | terminated
  | error
  deriving DecidableEq, Repr, Inhabited

/-- `GdbErrorCode` from gdb-error.h. -/
inductive GdbErrorCode where
  | sessionNotFound
  | sessionNotReady
  | sessionLimit
  | spawnFailed
  | timeout
  | commandFailed
  | parseError
  | invalidArgument
  | fileNotFound
  | attachFailed
  | alreadyRunning
  | notRunning
  | internal
  deriving DecidableEq, Repr, Inhabited

/-- `GdbMiRecordType` from gdb-enums.h. -/
inductive GdbMiRecordType where
  | result
  | execAsync
  | statusAsync
  | notifyAsync
  | console
  | target
  | log
  | prompt
  | unknown
  deriving DecidableEq, Repr, Inhabited

/-- `GdbMiResultClass` from gdb-enums.h. -/
inductive GdbMiResultClass where
  | done
  | running
  | connected
  | error
  | exit
  deriving DecidableEq, Repr, Inhabited

/-- `gdb_mi_record_type_from_char` (gdb-enums.c). -/
def gdb_mi_record_type_from_char (c : Char) : GdbMiRecordType :=
  if c = '^' then .result
  else if c = '*' then .execAsync
  else if c = '+' then .statusAsync
  else if c = '=' then .notifyAsync
  else if c = '~' then .console
  else if c = '@' then .target
  else if c = '&' then .log
  else .unknown

/-- `gdb_mi_result_class_from_string` (gdb-enums.c). -/
def gdb_mi_result_class_from_string (s : String) : GdbMiResultClass :=
  if s = "done" then .done
  else if s = "running" then .running
  else if s = "connected" then .connected
  else if s = "error" then .error
  else if s = "exit" then .exit
  else .error

/-! ## Character classes (GLib g_ascii_* predicates) -/

/-- `g_ascii_isspace`: space, tab, newline, carriage return, form feed,
vertical tab. -/
def gAsciiIsspace (c : Char) : Bool :=
  c = ' ' || c = '\t' || c = '\n' || c = '\r' ||
  c = Char.ofNat 11 || c = Char.ofNat 12

/-- `g_ascii_isalnum`: ASCII letters and digits only. -/
def gAsciiIsalnum (c : Char) : Bool :=
  (('a' ≤ c && c ≤ 'z') || ('A' ≤ c && c ≤ 'Z') || ('0' ≤ c && c ≤ '9'))

/-- `g_ascii_isdigit`. -/
def gAsciiIsdigit (c : Char) : Bool :=
  '0' ≤ c && c ≤ '9'

/-- The character class accepted by `parse_variable` (gdb-mi-parser.c:415)
and by the list lookahead: alphanumeric, underscore or hyphen. -/
def identChar (c : Char) : Bool :=
  gAsciiIsalnum c || c = '_' || c = '-'

/-! ## gdb_mi_parser_unescape_string (gdb-mi-parser.c:207) -/

/-- The scan loop of `gdb_mi_parser_unescape_string` (lines 230-267 of
gdb-mi-parser.c).  A backslash followed by another character in range is
decoded (`n t r \\ "` to their characters, `0` to a NUL byte); any other
escaped character is kept as a literal backslash plus that character; a
trailing lone backslash is copied verbatim. -/
def unescapeCore : List Char → List Char → List Char
  | acc, [] => acc
  | acc, c :: rest =>
    if c = '\\' then
      match rest with
      | [] => acc ++ ['\\']
      | c2 :: rest2 =>
        if c2 = 'n' then unescapeCore (acc ++ ['\n']) rest2
        else if c2 = 't' then unescapeCore (acc ++ ['\t']) rest2
        else if c2 = 'r' then unescapeCore (acc ++ ['\r']) rest2
        else if c2 = '\\' then unescapeCore (acc ++ ['\\']) rest2
        else if c2 = '"' then unescapeCore (acc ++ ['"']) rest2
        else if c2 = '0' then unescapeCore (acc ++ [Char.ofNat 0]) rest2
        else unescapeCore (acc ++ ['\\', c2]) rest2
    else unescapeCore (acc ++ [c]) rest

/-- `gdb_mi_parser_unescape_string`: strips one layer of surrounding
double quotes when present, then decodes escapes via `unescapeCore`. -/
def gdb_mi_parser_unescape_string (str : String) : String :=
  let cs := str.toList
  let cs :=
    if cs.length ≥ 2 && cs.headD ' ' = '"' && cs.getLastD ' ' = '"' then
      (cs.drop 1).dropLast
    else cs
  String.mk (unescapeCore [] cs)

/-- `g_str_has_prefix`, computed structurally on the character lists. -/
def gStrHasPre (s pre : String) : Bool :=
  pre.toList.isPrefixOf s.toList

/-- `gdb_mi_parser_is_prompt` (gdb-mi-parser.c:272): after stripping
leading whitespace the line is exactly `(gdb)` or starts with
`(gdb) `. -/
def gdb_mi_parser_is_prompt (line : String) : Bool :=
  let rest := String.mk (line.toList.dropWhile gAsciiIsspace)
  rest = "(gdb)" || gStrHasPre rest "(gdb) "

/-! ## The structured payload tree

A record payload is a JSON-like tree (`JsonNode` in the C code): string
constants, ordered keyed maps (`JsonObject`) and sequences
(`JsonArray`). -/

/-- Structured value tree: the shallow embedding of `JsonNode`. -/
inductive JVal where
  | str (s : String)
  | obj (members : List (String × JVal))
  | arr (elems : List JVal)
  deriving Inhabited

/-- `json_object_set_member`: replaces the value of an existing member
in place, otherwise appends the new member. -/
def setMember (obj : List (String × JVal)) (k : String) (v : JVal) :
    List (String × JVal) :=
  if obj.any (fun p => p.1 = k) then
    obj.map (fun p => if p.1 = k then (k, v) else p)
  else obj ++ [(k, v)]

/-- `json_object_has_member` / `json_object_get_member` as one lookup. -/
def getMember (obj : List (String × JVal)) (k : String) : Option JVal :=
  (obj.find? (fun p => p.1 = k)).map (fun p => p.2)

/-- `skip_whitespace` (gdb-mi-parser.c:330). -/
def skipWs (cs : List Char) : List Char :=
  cs.dropWhile gAsciiIsspace

/-! ## parse_c_string (gdb-mi-parser.c:345) -/

/-- The scan loop of `parse_c_string` (gdb-mi-parser.c:361-393).  Stops
at an unescaped closing quote or at end of input.  Decodes `\n \t \r
\\ \"`; for ANY other escaped character the backslash is dropped and the
character itself is appended (the `default` branch at line 383-385).  A
lone trailing backslash is copied verbatim. -/
def parseCStringBody : List Char → List Char → (List Char × List Char)
  | acc, [] => (acc, [])
  | acc, c :: rest =>
    if c = '"' then (acc, rest)
    else if c = '\\' then
      match rest with
      | [] => (acc ++ ['\\'], [])
      | c2 :: rest2 =>
        if c2 = 'n' then parseCStringBody (acc ++ ['\n']) rest2
        else if c2 = 't' then parseCStringBody (acc ++ ['\t']) rest2
        else if c2 = 'r' then parseCStringBody (acc ++ ['\r']) rest2
        else if c2 = '\\' then parseCStringBody (acc ++ ['\\']) rest2
        else if c2 = '"' then parseCStringBody (acc ++ ['"']) rest2
        else parseCStringBody (acc ++ [c2]) rest2
    else parseCStringBody (acc ++ [c]) rest

/-- `parse_c_string`: requires an opening quote, then scans via
`parseCStringBody`. -/
def parse_c_string (cs : List Char) : Option (String × List Char) :=
  if cs.head? = some '"' then
    let (acc, r) := parseCStringBody [] cs.tail
    some (String.mk acc, r)
  else none

/-- `parse_variable` (gdb-mi-parser.c:408): a nonempty run of
alphanumeric / underscore / hyphen characters. -/
def parse_variable (cs : List Char) : Option (String × List Char) :=
  let name := cs.takeWhile identChar
  if name.isEmpty then none
  else some (String.mk name, cs.dropWhile identChar)

/-- The one-identifier lookahead of `parse_list`
(gdb-mi-parser.c:624-634): scan identifier characters and test whether
the next character is `=`. -/
def lookaheadIsResult (cs : List Char) : Bool :=
  (cs.dropWhile identChar).head? = some '='

/-! ## The recursive value grammar (fuelled)

The C functions `parse_value`, `parse_result`, `parse_tuple` and
`parse_list` are mutually recursive over a cursor.  The embedding uses
an explicit fuel parameter for termination; the top-level wrappers
supply fuel that is ample for their input (each unit of nesting in the
input consumes several input characters, and `none` is returned if the
fuel were ever to run out, so no theorem rests on fuel exhaustion). -/

mutual

/-- `parse_value` (gdb-mi-parser.c:433): whitespace, then a C string, a
tuple or a list. -/
def parse_value : Nat → List Char → Option (JVal × List Char)
  | 0, _ => none
  | fuel + 1, cs =>
    let cs := skipWs cs
    if cs.head? = some '"' then
      match parse_c_string cs with
      | some (s, r) => some (JVal.str s, r)
      | none => none
    else if cs.head? = some '{' then
      match parse_tuple fuel cs with
      | some (o, r) => some (JVal.obj o, r)
      | none => none
    else if cs.head? = some '[' then
      match parse_list fuel cs with
      | some (a, r) => some (JVal.arr a, r)
      | none => none
    else none

/-- `parse_result` (gdb-mi-parser.c:490): `variable "=" value`, adding
the member to the given object. -/
def parse_result : Nat → List Char → List (String × JVal) →
    Option (List (String × JVal) × List Char)
  | 0, _, _ => none
  | fuel + 1, cs, obj =>
    match parse_variable (skipWs cs) with
    | none => none
    | some (name, cs1) =>
      let cs1 := skipWs cs1
      if cs1.head? = some '=' then
        match parse_value fuel cs1.tail with
        | none => none
        | some (v, cs3) => some (setMember obj name v, cs3)
      else none

/-- `parse_tuple` (gdb-mi-parser.c:536): `{}` or `{ result (, result)* }`. -/
def parse_tuple : Nat → List Char → Option (List (String × JVal) × List Char)
  | 0, _ => none
  | fuel + 1, cs =>
    if cs.head? = some '{' then
      let cs2 := skipWs cs.tail
      if cs2.head? = some '}' then some ([], cs2.tail)
      else
        match parse_result fuel cs2 [] with
        | none => none
        | some (obj, cs3) => parse_tuple_rest fuel cs3 obj
    else none

/-- The `while (**p == ',')` loop of `parse_tuple` followed by the
closing-brace check. -/
def parse_tuple_rest : Nat → List Char → List (String × JVal) →
    Option (List (String × JVal) × List Char)
  | 0, _, _ => none
  | fuel + 1, cs, obj =>
    if cs.head? = some ',' then
      match parse_result fuel cs.tail obj with
      | none => none
      | some (obj', cs2) => parse_tuple_rest fuel cs2 obj'
    else
      let cs2 := skipWs cs
      if cs2.head? = some '}' then some (obj, cs2.tail) else none

/-- `parse_list` (gdb-mi-parser.c:598): `[]`, or a first element that is
classified by `lookaheadIsResult`; a `name=value` first element selects
the result-list branch, a bare value selects the value-list branch. -/
def parse_list : Nat → List Char → Option (List JVal × List Char)
  | 0, _ => none
  | fuel + 1, cs =>
    if cs.head? = some '[' then
      let cs2 := skipWs cs.tail
      if cs2.head? = some ']' then some ([], cs2.tail)
      else if lookaheadIsResult cs2 then
        match parse_result fuel cs2 [] with
        | none => none
        | some (obj, cs3) => parse_list_result_rest fuel cs3 [JVal.obj obj]
      else
        match parse_value fuel cs2 with
        | none => none
        | some (v, cs3) => parse_list_value_rest fuel cs3 [v]
    else none

/-- The element loop of the result-list branch (gdb-mi-parser.c:652-691):
after each comma the lookahead is re-evaluated, so later elements may be
either `name=value` results (each wrapped as a single-entry map) or bare
values. -/
def parse_list_result_rest : Nat → List Char → List JVal →
    Option (List JVal × List Char)
  | 0, _, _ => none
  | fuel + 1, cs, acc =>
    if cs.head? = some ',' then
      let cs2 := skipWs cs.tail
      if lookaheadIsResult cs2 then
        match parse_result fuel cs2 [] with
        | none => none
        | some (obj, cs3) => parse_list_result_rest fuel cs3 (acc ++ [JVal.obj obj])
      else
        match parse_value fuel cs2 with
        | none => none
        | some (v, cs3) => parse_list_result_rest fuel cs3 (acc ++ [v])
    else
      let cs2 := skipWs cs
      if cs2.head? = some ']' then some (acc, cs2.tail) else none

/-- The element loop of the value-list branch (gdb-mi-parser.c:696-715):
every further element is parsed by `parse_value` with no lookahead. -/
def parse_list_value_rest : Nat → List Char → List JVal →
    Option (List JVal × List Char)
  | 0, _, _ => none
  | fuel + 1, cs, acc =>
    if cs.head? = some ',' then
      match parse_value fuel cs.tail with
      | none => none
      | some (v, cs3) => parse_list_value_rest fuel cs3 (acc ++ [v])
    else
      let cs2 := skipWs cs
      if cs2.head? = some ']' then some (acc, cs2.tail) else none

end

/-- The result loop of `parse_results` (gdb-mi-parser.c:758-776). -/
def parse_results_loop : Nat → List Char → List (String × JVal) →
    Option (List (String × JVal))
  | 0, _, _ => none
  | fuel + 1, cs, obj =>
    if cs.head? = none || cs.head? = some '\n' then some obj
    else
      match parse_result fuel cs obj with
      | none => none
      | some (obj', cs1) =>
        let cs1 := skipWs cs1
        if cs1.head? = some ',' then parse_results_loop fuel cs1.tail obj'
        else some obj'

/-- `parse_results` (gdb-mi-parser.c:736): comma-separated results.  An
immediately empty remainder yields an empty object; a single leading
comma (after the class name) is skipped. -/
def parse_results (fuel : Nat) (cs : List Char) :
    Option (List (String × JVal)) :=
  let cs1 := skipWs cs
  if cs1.head? = none || cs1.head? = some '\n' then some []
  else if cs1.head? = some ',' then parse_results_loop fuel cs1.tail []
  else parse_results_loop fuel cs1 []

/-! ## GdbMiRecord and gdb_mi_parser_parse_line -/

/-- The `GdbMiRecord` boxed struct (gdb-mi-parser.c:33), with the C
defaults set in `gdb_mi_record_new`: result class `done`, token `-1`. -/
structure GdbMiRecord where
  type : GdbMiRecordType
  result_class : GdbMiResultClass := .done
  class_name : Option String := none
  results : Option (List (String × JVal)) := none
  stream_content : Option String := none
  token : Int := -1

/-- `gdb_mi_record_is_error` (gdb-mi-parser.c:133). -/
def gdb_mi_record_is_error (r : GdbMiRecord) : Bool :=
  r.type = .result && r.result_class = .error

/-- `gdb_mi_record_get_error_message` (gdb-mi-parser.c:146): only for
error result records, and only when the payload has a string member
named `msg` (`json_object_get_string_member` yields NULL for a
non-string member). -/
def gdb_mi_record_get_error_message (r : GdbMiRecord) : Option String :=
  if gdb_mi_record_is_error r then
    match r.results with
    | none => none
    | some obj =>
      match getMember obj "msg" with
      | some (JVal.str s) => some s
      | _ => none
  else none

/-- `gdb_mi_parser_parse_line` (gdb-mi-parser.c:786), with ample fuel
for the recursive payload grammar. -/
def gdb_mi_parser_parse_line (line : String) : Option GdbMiRecord :=
  if gdb_mi_parser_is_prompt line then
    some { type := .prompt }
  else
    let cs := line.toList
    let digits := cs.takeWhile gAsciiIsdigit
    let token : Int :=
      if digits.isEmpty then -1
      else digits.foldl (fun a c => a * 10 + (Int.ofNat c.toNat - 48)) 0
    match cs.dropWhile gAsciiIsdigit with
    | [] => none
    | c :: p1 =>
      let ty := gdb_mi_record_type_from_char c
      if ty = .unknown then none
      else if ty = .console || ty = .target || ty = .log then
        if p1.head? = some '"' then
          match parse_c_string p1 with
          | some (s, _) => some { type := ty, token := token, stream_content := some s }
          | none => none
        else some { type := ty, token := token, stream_content := some (String.mk p1) }
      else
        let cls := String.mk (p1.takeWhile identChar)
        let p2 := p1.dropWhile identChar
        let rc := if ty = .result then gdb_mi_result_class_from_string cls else .done
        if p2.head? = some ',' || p2.head? = some ' ' then
          match parse_results (2 * p2.length + 4) p2 with
          | some obj => some { type := ty, result_class := rc, class_name := some cls,
                               token := token, results := some obj }
          | none => none
        else some { type := ty, result_class := rc, class_name := some cls,
                    token := token, results := some [] }

/-! ## Session state and admission (gdb-session.c) -/

/-- `gdb_session_is_ready` (gdb-session.c:441): commands are accepted
exactly in the READY and STOPPED states. -/
def gdb_session_is_ready (state : GdbSessionState) : Bool :=
  state = .ready || state = .stopped

/-- Outcome of one asynchronous operation as seen by the caller of the
`_finish` function: success payload, a `GDB_ERROR` domain error, or a
propagated lower-level GLib error (read/write failure). -/
inductive Outcome (α : Type) where
  | ok (val : α)
  | err (code : GdbErrorCode) (message : String)
  | ioError (message : String)

/-! ## The execute pipeline (gdb_session_execute_async) -/

/-- The `ExecuteData` in-flight record (gdb-session.c:779), without the
process-level fields: accumulated output lines, the `^error` tracking
flags and message, the `^running`/`*stopped` coupling flags, and the
console-output emissions published on the `console-output` signal. -/
structure ExecuteData where
  output : List String := []
  saw_error : Bool := false
  error_message : Option String := none
  saw_running : Bool := false
  saw_stopped : Bool := false
  console : List String := []
  deriving Repr, DecidableEq, Inhabited

/-- The message stored for a line starting with `^error`
(gdb-session.c:886-896): parse the line; a failed parse stores
"Unknown error"; a parsed record whose error-message accessor yields
NULL stores "GDB command failed"; otherwise the `msg` value. -/
def storedErrorMessage (line : String) : String :=
  match gdb_mi_parser_parse_line line with
  | none => "Unknown error"
  | some r =>
    match gdb_mi_record_get_error_message r with
    | some m => m
    | none => "GDB command failed"

/-- The per-line state updates of `on_execute_line_read`
(gdb-session.c:874-911): append the raw line, emit console output for
`~` stream lines, track `^error` (storing the message), track
`^running`/`*running` and `*stopped`. -/
def updateExecData (d : ExecuteData) (line : String) : ExecuteData :=
  let d := { d with output := d.output ++ [line] }
  let d :=
    if gStrHasPre line "~" then
      { d with console := d.console ++
          [gdb_mi_parser_unescape_string (String.mk (line.toList.drop 1))] }
    else d
  let d :=
    if gStrHasPre line "^error" then
      { d with saw_error := true, error_message := some (storedErrorMessage line) }
    else d
  let d :=
    if gStrHasPre line "^running" || gStrHasPre line "*running" then
      { d with saw_running := true }
    else d
  if gStrHasPre line "*stopped" then { d with saw_stopped := true } else d

/-- The accumulated raw text returned on success: each line is appended
verbatim followed by a newline (gdb-session.c:875-876). -/
def renderOutput (ls : List String) : String :=
  ls.foldl (fun acc l => acc ++ l ++ "\n") ""

/-- The completion value assembled at gdb-session.c:943-957: a
`CommandFailed` error carrying the stored message when `saw_error`,
otherwise the accumulated raw text. -/
def execCompletion (d : ExecuteData) : Outcome String :=
  if d.saw_error then .err .commandFailed (d.error_message.getD "")
  else .ok (renderOutput d.output)

/-- One full step of `on_execute_line_read` for a successfully read
line: update state, then decide completion.  A Prompt line or a line
starting with `^exit` completes the round-trip unless `^running` was
seen without a subsequent `*stopped` (gdb-session.c:919-958), in which
case reading continues; every other line continues reading. -/
def processExecLine (d : ExecuteData) (line : String) :
    ExecuteData × Option (Outcome String) :=
  let d := updateExecData d line
  if gdb_mi_parser_is_prompt line || gStrHasPre line "^exit" then
    if d.saw_running && !d.saw_stopped then (d, none)
    else (d, some (execCompletion d))
  else (d, none)

/-- The read-until-complete loop over a list of available lines:
returns the final in-flight state and, when some line completed the
command, the completion together with the lines left unread. -/
def runExecLines : ExecuteData → List String →
    ExecuteData × Option (Outcome String × List String)
  | d, [] => (d, none)
  | d, l :: ls =>
    match processExecLine d l with
    | (d1, some c) => (d1, some (c, ls))
    | (d1, none) => runExecLines d1 ls

/-! ## The execute_mi pipeline (gdb_session_execute_mi_async) -/

/-- The `ExecuteMiData` in-flight record (gdb-session.c:1120): the
parsed records accumulated so far. -/
structure ExecuteMiData where
  records : List GdbMiRecord := []

/-- One step of `on_execute_mi_line_read` (gdb-session.c:1185-1208):
parse the line, append the record when parsing succeeded, and complete
on a Prompt line or on the first record of type RESULT. -/
def processMiLine (d : ExecuteMiData) (line : String) : ExecuteMiData × Bool :=
  let record := gdb_mi_parser_parse_line line
  let d :=
    match record with
    | some r => { records := d.records ++ [r] }
    | none => d
  let complete :=
    gdb_mi_parser_is_prompt line ||
      (match record with
       | some r => r.type = GdbMiRecordType.result
       | none => false)
  (d, complete)

/-! ## Command-level traces: completions and timer discipline

The two async pipelines are driven by a cooperative loop; the model
below replays one submitted command deterministically from a script:
the session state at submission, whether the stdin write succeeds, the
lines the reader will deliver, whether EOF follows them, and at which
read suspension the command timeout would fire (`none` = its interval
outlives all the scripted lines).

`returnAttempts` records every `g_task_return_*` call the code would
make, in order.  GTask refuses a second return on the same task (the
`ever_returned` guard inside GLib), so the caller observes only the
first attempt: `delivered`.  `timerPendingAtFirstReturn` records
whether the command-timeout source was still attached to the context
when the first return was made; the execute pipeline destroys the
source on every completion path before returning (gdb-session.c:843-
848, 860-866, 934-941, 1011-1017), while the execute_mi pipeline never
does (gdb-session.c:1258-1267). -/
structure PipeTrace (α : Type) where
  returnAttempts : List (Outcome α)
  timerScheduled : Bool
  timerPendingAtFirstReturn : Bool

/-- The single delivered completion: GTask's single-return guard drops
every attempt after the first. -/
def PipeTrace.delivered {α : Type} (t : PipeTrace α) : List (Outcome α) :=
  t.returnAttempts.take 1

/-- A scripted run of one submitted command. -/
structure ExecScript where
  state : GdbSessionState
  writeOk : Bool
  lines : List String
  eof : Bool
  timerAfterReads : Option Nat

/-- The execute read loop continued after the command timeout already
fired (the timeout source removed itself, `data->timeout_source` is
NULL): any completion it still reaches is a further return attempt that
the task guard will discard. -/
def execLoopAfterTimeout : ExecuteData → List String → Bool → List (Outcome String)
  | _, [], eof =>
    if eof then [.err .commandFailed "GDB process exited unexpectedly"] else []
  | d, l :: ls, eof =>
    match processExecLine d l with
    | (_, some c) => [c]
    | (d1, none) => execLoopAfterTimeout d1 ls eof

/-- The execute read loop with a live timeout source.  At suspension
`k` the timeout fires if scheduled for `k` (on_execute_timeout,
gdb-session.c:1034-1054: the source removes itself and returns the
Timeout error; the outstanding read keeps running afterwards).  A line
completion destroys the source before returning (gdb-session.c:934-
941); EOF does the same (gdb-session.c:856-871); if the lines run out
with no EOF the loop blocks and the timeout eventually fires. -/
def execLoop : List String → ExecuteData → Bool → Option Nat → Nat →
    List (Outcome String) × Bool
  | [], d, eof, timer, k =>
    if timer = some k then
      (.err .timeout "GDB command timed out" :: execLoopAfterTimeout d [] eof, false)
    else if eof then ([.err .commandFailed "GDB process exited unexpectedly"], false)
    else ([.err .timeout "GDB command timed out"], false)
  | l :: ls, d, eof, timer, k =>
    if timer = some k then
      (.err .timeout "GDB command timed out" :: execLoopAfterTimeout d (l :: ls) eof, false)
    else
      match processExecLine d l with
      | (_, some c) => ([c], false)
      | (d1, none) => execLoop ls d1 eof timer (k + 1)

/-- The full `gdb_session_execute_async` trace: admission check before
any allocation (gdb-session.c:1073-1079), the timeout scheduled at
submission (line 1090), the write (destroying the timeout on write
error, lines 1008-1021), then the read loop. -/
def execDrive (s : ExecScript) : PipeTrace String :=
  if !gdb_session_is_ready s.state then
    { returnAttempts := [.err .sessionNotReady "Session not ready for commands"],
      timerScheduled := false, timerPendingAtFirstReturn := false }
  else if !s.writeOk then
    { returnAttempts := [.ioError "write failed"],
      timerScheduled := true, timerPendingAtFirstReturn := false }
  else
    let (attempts, pending) := execLoop s.lines {} s.eof s.timerAfterReads 0
    { returnAttempts := attempts, timerScheduled := true,
      timerPendingAtFirstReturn := pending }

/-- The execute_mi read loop continued after its timeout fired. -/
def miLoopAfterTimeout : List String → ExecuteMiData → Bool →
    List (Outcome (List GdbMiRecord))
  | [], _, eof =>
    if eof then [.err .commandFailed "GDB process exited unexpectedly"] else []
  | l :: ls, d, eof =>
    match processMiLine d l with
    | (d1, true) => [.ok d1.records]
    | (d1, false) => miLoopAfterTimeout ls d1 eof

/-- The execute_mi read loop.  No completion path destroys the timeout
source (gdb-session.c:1258-1267 schedules it and drops the only
tracked reference), so whenever the loop returns before the timeout
fired, the source is still attached and fires later as one more
(discarded) return attempt. -/
def miLoop : List String → ExecuteMiData → Bool → Option Nat → Nat →
    List (Outcome (List GdbMiRecord)) × Bool
  | [], d, eof, timer, k =>
    if timer = some k then
      (.err .timeout "GDB command timed out" :: miLoopAfterTimeout [] d eof, false)
    else if eof then
      ([.err .commandFailed "GDB process exited unexpectedly",
        .err .timeout "GDB command timed out"], true)
    else ([.err .timeout "GDB command timed out"], false)
  | l :: ls, d, eof, timer, k =>
    if timer = some k then
      (.err .timeout "GDB command timed out" :: miLoopAfterTimeout (l :: ls) d eof, false)
    else
      match processMiLine d l with
      | (d1, true) =>
          ([.ok d1.records, .err .timeout "GDB command timed out"], true)
      | (d1, false) => miLoop ls d1 eof timer (k + 1)

/-- The full `gdb_session_execute_mi_async` trace (gdb-session.c:1229-
1277): same admission rule; the timeout scheduled at submission is not
tracked; a write error returns without destroying it. -/
def miDrive (s : ExecScript) : PipeTrace (List GdbMiRecord) :=
  if !gdb_session_is_ready s.state then
    { returnAttempts := [.err .sessionNotReady "Session not ready for commands"],
      timerScheduled := false, timerPendingAtFirstReturn := false }
  else if !s.writeOk then
    { returnAttempts := [.ioError "write failed",
                         .err .timeout "GDB command timed out"],
      timerScheduled := true, timerPendingAtFirstReturn := true }
  else
    let (attempts, pending) := miLoop s.lines {} s.eof s.timerAfterReads 0
    { returnAttempts := attempts, timerScheduled := true,
      timerPendingAtFirstReturn := pending }

/-! ## The session registry (gdb-session-manager.c) -/

/-- The fields of `GdbSession` relevant to the registry and the sync
bridge (gdb-session.c:21-44, construction defaults from
`gdb_session_init` and the property definitions). -/
structure GdbSession where
  session_id : String
  gdb_path : String
  working_dir : Option String
  state : GdbSessionState := .disconnected
  timeout_ms : Nat := 10000
  deriving Repr, DecidableEq

/-- `gdb_session_new` (gdb-session.c:379): a NULL gdb path falls back
to "gdb" (set_property, gdb-session.c:183-190). -/
def gdb_session_new (session_id : String) (gdb_path : Option String)
    (working_dir : Option String) : GdbSession :=
  { session_id := session_id, gdb_path := gdb_path.getD "gdb",
    working_dir := working_dir }

/-- `GdbSessionManager` (gdb-session-manager.c:19): the session table,
defaults, and the id counter.  The GHashTable is modelled as an
association list whose keys are unique. -/
structure GdbSessionManager where
  sessions : List (String × GdbSession) := []
  default_gdb_path : String := "gdb"
  default_timeout_ms : Nat := 10000
  session_counter : Nat := 0

/-- `g_hash_table_insert`: replaces the value of an existing key in
place, otherwise adds the entry. -/
def tableInsert (t : List (String × GdbSession)) (k : String) (v : GdbSession) :
    List (String × GdbSession) :=
  if t.any (fun p => p.1 = k) then
    t.map (fun p => if p.1 = k then (k, v) else p)
  else t ++ [(k, v)]

/-- `g_hash_table_lookup`. -/
def tableLookup (t : List (String × GdbSession)) (k : String) : Option GdbSession :=
  (t.find? (fun p => p.1 = k)).map (fun p => p.2)

/-- `g_hash_table_remove`. -/
def tableRemove (t : List (String × GdbSession)) (k : String) :
    List (String × GdbSession) :=
  t.filter (fun p => p.1 ≠ k)

/-- `gdb_session_manager_create_session` (gdb-session-manager.c:304):
generates `{realtime}-{counter}`, bumps the counter, defaults the gdb
path, creates the session with the default timeout and stores it. -/
def gdb_session_manager_create_session (m : GdbSessionManager)
    (gdb_path working_dir : Option String) (nowMicros : Int) :
    GdbSessionManager × GdbSession :=
  let session_id := toString nowMicros ++ "-" ++ toString m.session_counter
  let path := gdb_path.getD m.default_gdb_path
  let session :=
    { gdb_session_new session_id (some path) working_dir with
        timeout_ms := m.default_timeout_ms }
  ({ m with sessions := tableInsert m.sessions session_id session,
            session_counter := m.session_counter + 1 },
   session)

/-- `gdb_session_manager_get_session` (gdb-session-manager.c:344). -/
def gdb_session_manager_get_session (m : GdbSessionManager) (session_id : String) :
    Option GdbSession :=
  tableLookup m.sessions session_id

/-- `gdb_session_manager_remove_session` (gdb-session-manager.c:360):
when the id is present the session is terminated and the entry removed
(result TRUE); otherwise nothing changes (result FALSE).  Termination
mutates only the session object, not the table, so it does not affect
the returned registry contents. -/
def gdb_session_manager_remove_session (m : GdbSessionManager)
    (session_id : String) : GdbSessionManager × Bool :=
  match tableLookup m.sessions session_id with
  | some _ => ({ m with sessions := tableRemove m.sessions session_id }, true)
  | none => (m, false)

/-! ## The post-write settle delay (gdb-session.c:530) -/

/-- `DEFAULT_POST_COMMAND_DELAY_MS` (gdb-session.h:25). -/
def DEFAULT_POST_COMMAND_DELAY_MS : Nat := 2000

/-- The base-10 accumulation loop of `strtoull`: `value * 10 + digit`. -/
def digitFold (ds : List Char) : Nat :=
  ds.foldl (fun a c => a * 10 + (c.toNat - 48)) 0

/-- `g_ascii_strtoull` with base 10: skip ASCII whitespace, optional
sign, a run of decimal digits (none → 0).  The value is unsigned
64-bit: a magnitude beyond the range clamps to `2^64 - 1` (ERANGE), and
a leading minus sign negates the value in the return type, i.e. wraps
modulo `2^64`. -/
def g_ascii_strtoull (s : String) : Nat :=
  let cs := s.toList.dropWhile gAsciiIsspace
  let neg := cs.head? = some '-'
  let cs := if cs.head? = some '-' || cs.head? = some '+' then cs.tail else cs
  let exact := digitFold (cs.takeWhile gAsciiIsdigit)
  if exact ≥ 2 ^ 64 then 2 ^ 64 - 1
  else if neg then (2 ^ 64 - exact) % 2 ^ 64
  else exact

/-- `get_post_command_delay_ms` (gdb-session.c:530): the environment
value, when present, is converted by `g_ascii_strtoull` and truncated to
`guint` (32 bits); a nonzero result is used, anything else falls back
to the 2000 ms default. -/
def get_post_command_delay_ms (env : Option String) : Nat :=
  match env with
  | none => DEFAULT_POST_COMMAND_DELAY_MS
  | some v =>
    let delay := g_ascii_strtoull v % 2 ^ 32
    if delay > 0 then delay else DEFAULT_POST_COMMAND_DELAY_MS

/-! ## The sync bridge (gdb-tools-common.c:31) -/

/-- The `SyncExecuteData` result slots (gdb-tools-common.c:14): filled
by `on_execute_complete` when the pipeline callback ran before the
guard timer quit the loop. -/
structure SyncExecuteData where
  output : Option String := none
  error : Option (Outcome String) := none

/-- `on_execute_complete` (gdb-tools-common.c:20): a successful finish
fills `output`, a failed finish fills `error`. -/
def on_execute_complete (result : Outcome String) : SyncExecuteData :=
  match result with
  | .ok t => { output := some t }
  | e => { error := some e }

/-- The guard timeout installed on the call-local context
(gdb-tools-common.c:62): the session's command timeout plus 1000 ms. -/
def guardTimeoutInterval (session : GdbSession) : Nat :=
  session.timeout_ms + 1000

/-- `gdb_tools_execute_command_sync` (gdb-tools-common.c:31) after the
local loop has quit: `pipeline` is the command pipeline's completion if
its callback ran, `none` if the guard timer quit the loop first.  If
neither output nor error is present the guard fired and Timeout is
returned; otherwise the pipeline error or output is propagated. -/
def gdb_tools_execute_command_sync (command : String)
    (pipeline : Option (Outcome String)) : Outcome String :=
  let data : SyncExecuteData :=
    match pipeline with
    | some o => on_execute_complete o
    | none => {}
  let timed_out := data.output.isNone && data.error.isNone
  if timed_out then .err .timeout ("GDB command timed out: " ++ command)
  else
    match data.error with
    | some e => e
    | none => .ok (data.output.getD "")

/-! ## Derived observations used by the theorems -/

/-- Some line of the history set `saw_running`: a line starting with
`^running` or `*running`. -/
def seenRunning (ls : List String) : Bool :=
  ls.any (fun l => gStrHasPre l "^running" || gStrHasPre l "*running")

/-- Some line of the history set `saw_stopped`: a line starting with
`*stopped`. -/
def seenStopped (ls : List String) : Bool :=
  ls.any (fun l => gStrHasPre l "*stopped")

/-- Some line of the history set `saw_error`: a line starting with
`^error`. -/
def seenError (ls : List String) : Bool :=
  ls.any (fun l => gStrHasPre l "^error")

/-- The message held in `data->error_message` after a line history: the
stored message of the last `^error` line (each `^error` line overwrites
the slot, gdb-session.c:895-896). -/
def lastErrorMessage (ls : List String) : Option String :=
  ls.foldl (fun acc l =>
    if gStrHasPre l "^error" then some (storedErrorMessage l) else acc) none

/-- The escape table the spec claims for BOTH string decoders (one
decoded character list per escaped character): `n t r \\ "` decode, `0`
yields a NUL byte, anything else a literal backslash plus the
character.  `gdb_mi_parser_unescape_string` follows it;
`parse_c_string` does not. -/
def unescMap (c : Char) : List Char :=
  if c = 'n' then ['\n']
  else if c = 't' then ['\t']
  else if c = 'r' then ['\r']
  else if c = '\\' then ['\\']
  else if c = '"' then ['"']
  else if c = '0' then [Char.ofNat 0]
  else ['\\', c]

/-- The escape table `parse_c_string` actually implements: `n t r \\ "`
decode, and every other escaped character is emitted alone, with the
backslash dropped. -/
def cstringMap (c : Char) : Char :=
  if c = 'n' then '\n'
  else if c = 't' then '\t'
  else if c = 'r' then '\r'
  else if c = '\\' then '\\'
  else if c = '"' then '"'
  else c

/-- `parse_list` applied with the ample fuel the record parser uses. -/
def parseMiList (s : String) : Option (List JVal × List Char) :=
  parse_list (2 * s.length + 4) s.toList

/-! # Helper lemmas -/

theorem not_space_of_isdigit {c : Char} (h : gAsciiIsdigit c = true) :
    gAsciiIsspace c = false := by
  unfold gAsciiIsspace
  by_cases h1 : c = ' '
  · subst h1; exact absurd h (by decide)
  by_cases h2 : c = '\t'
  · subst h2; exact absurd h (by decide)
  by_cases h3 : c = '\n'
  · subst h3; exact absurd h (by decide)
  by_cases h4 : c = '\r'
  · subst h4; exact absurd h (by decide)
  by_cases h5 : c = Char.ofNat 11
  · subst h5; exact absurd h (by decide)
  by_cases h6 : c = Char.ofNat 12
  · subst h6; exact absurd h (by decide)
  simp [h1, h2, h3, h4, h5, h6]

theorem not_space_of_ident {c : Char} (h : identChar c = true) :
    gAsciiIsspace c = false := by
  unfold gAsciiIsspace
  by_cases h1 : c = ' '
  · subst h1; exact absurd h (by decide)
  by_cases h2 : c = '\t'
  · subst h2; exact absurd h (by decide)
  by_cases h3 : c = '\n'
  · subst h3; exact absurd h (by decide)
  by_cases h4 : c = '\r'
  · subst h4; exact absurd h (by decide)
  by_cases h5 : c = Char.ofNat 11
  · subst h5; exact absurd h (by decide)
  by_cases h6 : c = Char.ofNat 12
  · subst h6; exact absurd h (by decide)
  simp [h1, h2, h3, h4, h5, h6]

theorem skipWs_cons_of_not_space {c : Char} {l : List Char}
    (h : gAsciiIsspace c = false) : skipWs (c :: l) = c :: l := by
  simp [skipWs, List.dropWhile_cons, h]

theorem takeWhile_eq_self_of_all {α : Type} {p : α → Bool} :
    ∀ {l : List α}, (∀ a ∈ l, p a = true) → l.takeWhile p = l := by
  intro l
  induction l with
  | nil => intro _; rfl
  | cons a t ih =>
    intro h
    rw [List.takeWhile_cons, h a (by simp)]
    simp [ih (fun x hx => h x (by simp [hx]))]

theorem takeWhile_append_cons {p : Char → Bool} :
    ∀ (l1 : List Char) (c : Char) (l2 : List Char),
    (∀ x ∈ l1, p x = true) → p c = false →
    (l1 ++ c :: l2).takeWhile p = l1 ∧ (l1 ++ c :: l2).dropWhile p = c :: l2 := by
  intro l1
  induction l1 with
  | nil =>
    intro c l2 _ hc
    simp [List.takeWhile_cons, List.dropWhile_cons, hc]
  | cons a t ih =>
    intro c l2 h hc
    have ha : p a = true := h a (by simp)
    have := ih c l2 (fun x hx => h x (by simp [hx])) hc
    simp [List.takeWhile_cons, List.dropWhile_cons, ha, this.1, this.2]

theorem updateExecData_saw_running (d : ExecuteData) (l : String) :
    (updateExecData d l).saw_running
      = (d.saw_running || (gStrHasPre l "^running" || gStrHasPre l "*running")) := by
  simp only [updateExecData]
  split_ifs <;> simp_all

theorem updateExecData_saw_stopped (d : ExecuteData) (l : String) :
    (updateExecData d l).saw_stopped = (d.saw_stopped || gStrHasPre l "*stopped") := by
  simp only [updateExecData]
  split_ifs <;> simp_all

theorem updateExecData_saw_error (d : ExecuteData) (l : String) :
    (updateExecData d l).saw_error = (d.saw_error || gStrHasPre l "^error") := by
  simp only [updateExecData]
  split_ifs <;> simp_all

theorem updateExecData_output (d : ExecuteData) (l : String) :
    (updateExecData d l).output = d.output ++ [l] := by
  simp only [updateExecData]
  split_ifs <;> simp_all

theorem updateExecData_error_message (d : ExecuteData) (l : String) :
    (updateExecData d l).error_message
      = if gStrHasPre l "^error" then some (storedErrorMessage l)
        else d.error_message := by
  simp only [updateExecData]
  split_ifs <;> simp_all

theorem foldl_updateExecData_saw_running : ∀ (ls : List String) (d : ExecuteData),
    (ls.foldl updateExecData d).saw_running = (d.saw_running || seenRunning ls) := by
  intro ls
  induction ls with
  | nil => intro d; simp [seenRunning]
  | cons l ls ih =>
    intro d
    simp only [List.foldl_cons, ih, updateExecData_saw_running, seenRunning,
      List.any_cons]
    rw [Bool.or_assoc]

theorem foldl_updateExecData_saw_stopped : ∀ (ls : List String) (d : ExecuteData),
    (ls.foldl updateExecData d).saw_stopped = (d.saw_stopped || seenStopped ls) := by
  intro ls
  induction ls with
  | nil => intro d; simp [seenStopped]
  | cons l ls ih =>
    intro d
    simp only [List.foldl_cons, ih, updateExecData_saw_stopped, seenStopped,
      List.any_cons]
    rw [Bool.or_assoc]

theorem foldl_updateExecData_saw_error : ∀ (ls : List String) (d : ExecuteData),
    (ls.foldl updateExecData d).saw_error = (d.saw_error || seenError ls) := by
  intro ls
  induction ls with
  | nil => intro d; simp [seenError]
  | cons l ls ih =>
    intro d
    simp only [List.foldl_cons, ih, updateExecData_saw_error, seenError,
      List.any_cons]
    rw [Bool.or_assoc]

theorem foldl_updateExecData_output : ∀ (ls : List String) (d : ExecuteData),
    (ls.foldl updateExecData d).output = d.output ++ ls := by
  intro ls
  induction ls with
  | nil => intro d; simp
  | cons l ls ih =>
    intro d
    simp [List.foldl_cons, ih, updateExecData_output]

theorem lastErrorMessage_foldl_init : ∀ (ls : List String) (i : Option String),
    ls.foldl (fun acc l =>
      if gStrHasPre l "^error" then some (storedErrorMessage l) else acc) i
    = match ls.foldl (fun acc l =>
        if gStrHasPre l "^error" then some (storedErrorMessage l) else acc) none with
      | some m => some m
      | none => i := by
  intro ls
  induction ls with
  | nil => intro i; simp
  | cons l ls ih =>
    intro i
    simp only [List.foldl_cons]
    rw [ih, ih (if gStrHasPre l "^error" then some (storedErrorMessage l) else none)]
    cases hfold : ls.foldl (fun acc l =>
        if gStrHasPre l "^error" then some (storedErrorMessage l) else acc) none with
    | some m => rfl
    | none => split_ifs <;> rfl

theorem foldl_updateExecData_error_message : ∀ (ls : List String) (d : ExecuteData),
    (ls.foldl updateExecData d).error_message
      = match lastErrorMessage ls with
        | some m => some m
        | none => d.error_message := by
  intro ls
  induction ls with
  | nil => intro d; simp [lastErrorMessage]
  | cons l ls ih =>
    intro d
    simp only [List.foldl_cons, ih, updateExecData_error_message, lastErrorMessage]
    rw [lastErrorMessage_foldl_init ls
      (if gStrHasPre l "^error" then some (storedErrorMessage l) else none)]
    cases hfold : ls.foldl (fun acc l =>
        if gStrHasPre l "^error" then some (storedErrorMessage l) else acc) none with
    | some m => rfl
    | none => split_ifs <;> rfl

theorem runExecLines_cons (d : ExecuteData) (l : String) (ls : List String) :
    runExecLines d (l :: ls)
      = match processExecLine d l with
        | (d1, some c) => (d1, some (c, ls))
        | (d1, none) => runExecLines d1 ls := rfl

theorem processExecLine_fst (d : ExecuteData) (l : String) :
    (processExecLine d l).1 = updateExecData d l := by
  simp only [processExecLine]
  split_ifs <;> rfl

theorem processExecLine_none (d : ExecuteData) (l : String)
    (h : (gdb_mi_parser_is_prompt l || gStrHasPre l "^exit") = false) :
    (processExecLine d l).2 = none := by
  simp [processExecLine, h]

theorem processExecLine_term (d : ExecuteData) (l : String)
    (h : (gdb_mi_parser_is_prompt l || gStrHasPre l "^exit") = true) :
    (processExecLine d l).2
      = if ((updateExecData d l).saw_running && !(updateExecData d l).saw_stopped)
          = true
        then none else some (execCompletion (updateExecData d l)) := by
  simp only [processExecLine, h, if_true]
  split_ifs <;> simp_all

theorem processExecLine_some (d : ExecuteData) (l : String) (c : Outcome String)
    (h : (processExecLine d l).2 = some c) :
    c = execCompletion (updateExecData d l) := by
  simp only [processExecLine] at h
  split_ifs at h
  simp_all

theorem runExecLines_append : ∀ (pre : List String) (d : ExecuteData),
    (runExecLines d pre).2 = none →
    ∀ suf, runExecLines d (pre ++ suf)
      = runExecLines (pre.foldl updateExecData d) suf := by
  intro pre
  induction pre with
  | nil => intro d _ suf; rfl
  | cons l pre ih =>
    intro d h suf
    rw [runExecLines_cons] at h
    cases hp : processExecLine d l with
    | mk d1 oc =>
      have hd1 : d1 = updateExecData d l := by
        have := processExecLine_fst d l
        rw [hp] at this
        exact this
      rw [hp] at h
      cases oc with
      | some c => simp at h
      | none =>
        simp only at h
        rw [List.cons_append, runExecLines_cons, hp]
        simp only
        rw [ih d1 h suf, List.foldl_cons, hd1]

theorem runExecLines_some_spec : ∀ (ls : List String) (d d' : ExecuteData)
    (c : Outcome String) (rest : List String),
    runExecLines d ls = (d', some (c, rest)) →
    ∃ consumed, ls = consumed ++ rest
      ∧ d' = consumed.foldl updateExecData d
      ∧ c = execCompletion d' := by
  intro ls
  induction ls with
  | nil =>
    intro d d' c rest h
    rw [show runExecLines d [] = (d, none) from rfl] at h
    exact absurd (congrArg Prod.snd h) (by simp)
  | cons l ls ih =>
    intro d d' c rest h
    rw [runExecLines_cons] at h
    cases hp : processExecLine d l with
    | mk d1 oc =>
      have hd1 : d1 = updateExecData d l := by
        have := processExecLine_fst d l
        rw [hp] at this
        exact this
      rw [hp] at h
      cases oc with
      | some c0 =>
        simp only at h
        have h1 : d1 = d' := congrArg Prod.fst h
        have h2 : (some (c0, ls) : Option (Outcome String × List String))
            = some (c, rest) := congrArg Prod.snd h
        have h3 : c0 = c ∧ ls = rest := by
          injection h2 with h2
          exact ⟨congrArg Prod.fst h2, congrArg Prod.snd h2⟩
        refine ⟨[l], ?_, ?_, ?_⟩
        · simp [h3.2]
        · simp [← h1, hd1]
        · rw [← h3.1, ← h1, hd1]
          apply processExecLine_some d l
          rw [hp]
      | none =>
        simp only at h
        obtain ⟨consumed, hsplit, hstate, hcomp⟩ := ih d1 d' c rest h
        exact ⟨l :: consumed, by simp [hsplit],
          by simp [List.foldl_cons, hd1, hstate], hcomp⟩


theorem ident_not_delim {c : Char} (h : identChar c = true) :
    c ≠ '"' ∧ c ≠ Char.ofNat 123 ∧ c ≠ '[' ∧ c ≠ ']' ∧ c ≠ ',' ∧ c ≠ '=' := by
  refine ⟨?_, ?_, ?_, ?_, ?_, ?_⟩ <;> rintro rfl <;> exact absurd h (by decide)

theorem parseCStringBody_nil_body (acc rest : List Char) :
    parseCStringBody acc ('"' :: rest) = (acc, rest) := by
  rw [parseCStringBody.eq_def]
  simp only
  simp

theorem parseCStringBody_skip (b : Char) (tl acc : List Char)
    (h1 : b ≠ '"') (h2 : b ≠ '\\') :
    parseCStringBody acc (b :: tl) = parseCStringBody (acc ++ [b]) tl := by
  rw [parseCStringBody.eq_def]
  simp only
  rw [if_neg h1, if_neg h2]

theorem parseCStringBody_clean : ∀ (body acc rest : List Char),
    (∀ c ∈ body, c ≠ '"' ∧ c ≠ '\\') →
    parseCStringBody acc (body ++ ('"' :: rest)) = (acc ++ body, rest) := by
  intro body
  induction body with
  | nil =>
    intro acc rest _
    rw [List.nil_append, parseCStringBody_nil_body]
    simp
  | cons b body ih =>
    intro acc rest h
    have hb := h b (by simp)
    rw [List.cons_append, parseCStringBody_skip b _ acc hb.1 hb.2]
    rw [ih (acc ++ [b]) rest (fun c hc => h c (by simp [hc]))]
    simp

theorem parse_c_string_clean (body rest : List Char)
    (h : ∀ c ∈ body, c ≠ '"' ∧ c ≠ '\\') :
    parse_c_string ('"' :: (body ++ ('"' :: rest))) = some (String.mk body, rest) := by
  simp only [parse_c_string]
  rw [if_pos (show ('"' :: (body ++ ('"' :: rest))).head? = some '"' from rfl)]
  rw [show ('"' :: (body ++ ('"' :: rest))).tail = body ++ ('"' :: rest) from rfl]
  rw [parseCStringBody_clean body [] rest h]
  simp

theorem parse_variable_name (name : List Char) (rest : List Char)
    (hne : name ≠ []) (hid : ∀ c ∈ name, identChar c = true) :
    parse_variable (name ++ ('=' :: rest)) = some (String.mk name, '=' :: rest) := by
  have h := takeWhile_append_cons name '=' rest hid (by decide)
  simp only [parse_variable, h.1, h.2]
  rw [if_neg (by simpa [List.isEmpty_iff] using hne)]

theorem lookahead_name (name : List Char) (rest : List Char)
    (hid : ∀ c ∈ name, identChar c = true) :
    lookaheadIsResult (name ++ ('=' :: rest)) = true := by
  have h := takeWhile_append_cons name '=' rest hid (by decide)
  simp [lookaheadIsResult, h.2]

theorem lookahead_quote (rest : List Char) :
    lookaheadIsResult ('"' :: rest) = false := by
  have hq : identChar '"' = false := by decide
  simp [lookaheadIsResult, List.dropWhile_cons, hq]

theorem skipWs_name (name : List Char) (suffix : List Char) (hne : name ≠ [])
    (hid : ∀ c ∈ name, identChar c = true) :
    skipWs (name ++ suffix) = name ++ suffix := by
  rcases name with _ | ⟨n0, name⟩
  · exact absurd rfl hne
  · exact skipWs_cons_of_not_space (not_space_of_ident (hid n0 (by simp)))

theorem parse_value_string (fuel : Nat) (body rest : List Char)
    (h : ∀ c ∈ body, c ≠ '"' ∧ c ≠ '\\') :
    parse_value (fuel + 1) ('"' :: (body ++ ('"' :: rest)))
      = some (JVal.str (String.mk body), rest) := by
  rw [parse_value]
  rw [show skipWs ('"' :: (body ++ ('"' :: rest))) = '"' :: (body ++ ('"' :: rest))
    from skipWs_cons_of_not_space (by decide)]
  rw [if_pos (show ('"' :: (body ++ ('"' :: rest))).head? = some '"' from rfl)]
  rw [parse_c_string_clean body rest h]

theorem parse_result_simple (fuel : Nat) (name body rest : List Char)
    (obj : List (String × JVal)) (hne : name ≠ [])
    (hid : ∀ c ∈ name, identChar c = true)
    (hb : ∀ c ∈ body, c ≠ '"' ∧ c ≠ '\\') :
    parse_result (fuel + 2) (name ++ ('=' :: '"' :: (body ++ ('"' :: rest)))) obj
      = some (setMember obj (String.mk name) (JVal.str (String.mk body)), rest) := by
  rw [parse_result]
  rw [skipWs_name name ('=' :: '"' :: (body ++ ('"' :: rest))) hne hid]
  rw [parse_variable_name name ('"' :: (body ++ ('"' :: rest))) hne hid]
  simp only
  rw [show skipWs ('=' :: '"' :: (body ++ ('"' :: rest)))
      = '=' :: '"' :: (body ++ ('"' :: rest)) from
    skipWs_cons_of_not_space (by decide)]
  rw [if_pos (show ('=' :: '"' :: (body ++ ('"' :: rest))).head? = some '=' from rfl)]
  rw [show ('=' :: '"' :: (body ++ ('"' :: rest))).tail
      = '"' :: (body ++ ('"' :: rest)) from rfl]
  rw [parse_value_string fuel body rest hb]


theorem parse_value_ident_none (fuel : Nat) (name suffix : List Char)
    (hne : name ≠ []) (hid : ∀ c ∈ name, identChar c = true) :
    parse_value (fuel + 1) (name ++ suffix) = none := by
  rcases name with _ | ⟨n0, name'⟩
  · exact absurd rfl hne
  have h0 : identChar n0 = true := hid n0 (by simp)
  have hd := ident_not_delim h0
  rw [parse_value]
  rw [show ((n0 :: name') ++ suffix : List Char) = n0 :: (name' ++ suffix)
    from rfl]
  rw [skipWs_cons_of_not_space (not_space_of_ident h0)]
  simp only [List.head?_cons]
  rw [if_neg (by simp [hd.1])]
  rw [if_neg (by simp [hd.2.1])]
  rw [if_neg (by simp [hd.2.2.1])]

theorem head?_name_append (name suffix : List Char) (hne : name ≠ [])
    (hid : ∀ c ∈ name, identChar c = true) :
    ∃ n0, (name ++ suffix).head? = some n0 ∧ identChar n0 = true := by
  rcases name with _ | ⟨n0, name'⟩
  · exact absurd rfl hne
  · exact ⟨n0, rfl, hid n0 (by simp)⟩

theorem parse_list_result_rest_close (fuel : Nat) (acc : List JVal) :
    parse_list_result_rest (fuel + 1) [']'] acc = some (acc, []) := by
  rw [parse_list_result_rest]
  rw [if_neg (by decide)]
  rw [show skipWs [']'] = [']'] from skipWs_cons_of_not_space (by decide)]
  simp

theorem parse_list_value_rest_close (fuel : Nat) (acc : List JVal) :
    parse_list_value_rest (fuel + 1) [']'] acc = some (acc, []) := by
  rw [parse_list_value_rest]
  rw [if_neg (by decide)]
  rw [show skipWs [']'] = [']'] from skipWs_cons_of_not_space (by decide)]
  simp

theorem parse_list_single_result (fuel : Nat) (name body : List Char)
    (hne : name ≠ []) (hid : ∀ c ∈ name, identChar c = true)
    (hb : ∀ c ∈ body, c ≠ '"' ∧ c ≠ '\\') :
    parse_list (fuel + 3) ('[' :: (name ++ ('=' :: '"' :: (body ++ ['"', ']']))))
      = some ([JVal.obj [(String.mk name, JVal.str (String.mk body))]], []) := by
  rw [parse_list]
  simp only [List.head?_cons, List.tail_cons, eq_self_iff_true, if_true]
  rw [skipWs_name name ('=' :: '"' :: (body ++ ['"', ']'])) hne hid]
  obtain ⟨n0, hh, h0⟩ := head?_name_append name ('=' :: '"' :: (body ++ ['"', ']'])) hne hid
  rw [hh]
  rw [if_neg (by simp [(ident_not_delim h0).2.2.2.1])]
  rw [if_pos (lookahead_name name ('"' :: (body ++ ['"', ']'])) hid)]
  rw [parse_result_simple fuel name body [']'] [] hne hid hb]
  have hclose : parse_list_result_rest (fuel + 2) [']']
      [JVal.obj (setMember [] (String.mk name) (JVal.str (String.mk body)))]
      = some ([JVal.obj (setMember [] (String.mk name) (JVal.str (String.mk body)))], []) :=
    parse_list_result_rest_close (fuel + 1) _
  simpa [setMember] using hclose


theorem parse_list_result_rest_qstep (fuel : Nat) (b2 rest2 : List Char)
    (acc : List JVal) (hb2 : ∀ c ∈ b2, c ≠ '"' ∧ c ≠ '\\') :
    parse_list_result_rest ((fuel + 1) + 1) (',' :: ('"' :: (b2 ++ ('"' :: rest2)))) acc
      = parse_list_result_rest (fuel + 1) rest2 (acc ++ [JVal.str (String.mk b2)]) := by
  rw [parse_list_result_rest]
  simp only [List.head?_cons, List.tail_cons, eq_self_iff_true, if_true]
  rw [skipWs_cons_of_not_space (by decide : gAsciiIsspace '"' = false)]
  rw [if_neg (by simp [lookahead_quote])]
  rw [parse_value_string fuel b2 rest2 hb2]

theorem parse_list_value_rest_qstep (fuel : Nat) (b2 rest2 : List Char)
    (acc : List JVal) (hb2 : ∀ c ∈ b2, c ≠ '"' ∧ c ≠ '\\') :
    parse_list_value_rest ((fuel + 1) + 1) (',' :: ('"' :: (b2 ++ ('"' :: rest2)))) acc
      = parse_list_value_rest (fuel + 1) rest2 (acc ++ [JVal.str (String.mk b2)]) := by
  rw [parse_list_value_rest]
  simp only [List.head?_cons, List.tail_cons, eq_self_iff_true, if_true]
  rw [parse_value_string fuel b2 rest2 hb2]

theorem parse_list_value_rest_ident_fail (fuel : Nat) (name suffix : List Char)
    (acc : List JVal) (hne : name ≠ []) (hid : ∀ c ∈ name, identChar c = true) :
    parse_list_value_rest ((fuel + 1) + 1) (',' :: (name ++ suffix)) acc = none := by
  rw [parse_list_value_rest]
  simp only [List.head?_cons, List.tail_cons, eq_self_iff_true, if_true]
  rw [parse_value_ident_none fuel name suffix hne hid]

theorem parse_list_result_then_value (fuel : Nat) (name body body2 : List Char)
    (hne : name ≠ []) (hid : ∀ c ∈ name, identChar c = true)
    (hb : ∀ c ∈ body, c ≠ '"' ∧ c ≠ '\\')
    (hb2 : ∀ c ∈ body2, c ≠ '"' ∧ c ≠ '\\') :
    parse_list (fuel + 3)
      ('[' :: (name ++ ('=' :: '"' :: (body ++
        ('"' :: ',' :: '"' :: (body2 ++ ['"', ']']))))))
      = some ([JVal.obj [(String.mk name, JVal.str (String.mk body))],
               JVal.str (String.mk body2)], []) := by
  rw [parse_list]
  simp only [List.head?_cons, List.tail_cons, eq_self_iff_true, if_true]
  rw [skipWs_name name ('=' :: '"' :: (body ++
    ('"' :: ',' :: '"' :: (body2 ++ ['"', ']'])))) hne hid]
  obtain ⟨n0, hh, h0⟩ := head?_name_append name ('=' :: '"' :: (body ++
    ('"' :: ',' :: '"' :: (body2 ++ ['"', ']'])))) hne hid
  rw [hh]
  rw [if_neg (by simp [(ident_not_delim h0).2.2.2.1])]
  rw [if_pos (lookahead_name name ('"' :: (body ++
    ('"' :: ',' :: '"' :: (body2 ++ ['"', ']'])))) hid)]
  rw [show (body ++ ('"' :: ',' :: '"' :: (body2 ++ ['"', ']'])) : List Char)
      = body ++ ('"' :: (',' :: ('"' :: (body2 ++ ('"' :: [']']))))) from rfl]
  rw [parse_result_simple fuel name body
    (',' :: ('"' :: (body2 ++ ('"' :: [']'])))) [] hne hid hb]
  have hstep : parse_list_result_rest (fuel + 2)
      (',' :: ('"' :: (body2 ++ ('"' :: [']']))))
      [JVal.obj (setMember [] (String.mk name) (JVal.str (String.mk body)))]
      = parse_list_result_rest (fuel + 1) [']']
        ([JVal.obj (setMember [] (String.mk name) (JVal.str (String.mk body)))]
          ++ [JVal.str (String.mk body2)]) :=
    parse_list_result_rest_qstep fuel body2 [']'] _ hb2
  have hclose : parse_list_result_rest (fuel + 1) [']']
      ([JVal.obj (setMember [] (String.mk name) (JVal.str (String.mk body)))]
        ++ [JVal.str (String.mk body2)])
      = some ([JVal.obj (setMember [] (String.mk name) (JVal.str (String.mk body)))]
          ++ [JVal.str (String.mk body2)], []) :=
    parse_list_result_rest_close fuel _
  simp only [hstep, hclose]
  simp [setMember]

theorem parse_list_value_then_result_fails (fuel : Nat)
    (body name body2 : List Char)
    (hb : ∀ c ∈ body, c ≠ '"' ∧ c ≠ '\\')
    (hne : name ≠ []) (hid : ∀ c ∈ name, identChar c = true) :
    parse_list (fuel + 3)
      ('[' :: ('"' :: (body ++ ('"' :: ',' ::
        (name ++ ('=' :: '"' :: (body2 ++ ['"', ']'])))))))
      = none := by
  rw [parse_list]
  simp only [List.head?_cons, List.tail_cons, eq_self_iff_true, if_true]
  rw [skipWs_cons_of_not_space (by decide : gAsciiIsspace '"' = false)]
  simp only [List.head?_cons]
  rw [if_neg (by decide)]
  rw [if_neg (by simp [lookahead_quote])]
  rw [show (body ++ ('"' :: ',' :: (name ++ ('=' :: '"' :: (body2 ++ ['"', ']']))))
      : List Char)
      = body ++ ('"' :: (',' :: (name ++ ('=' :: '"' :: (body2 ++ ['"', ']'])))))
      from rfl]
  have hv : parse_value (fuel + 2)
      ('"' :: (body ++ ('"' :: (',' :: (name ++ ('=' :: '"' :: (body2 ++ ['"', ']'])))))))
      = some (JVal.str (String.mk body),
          ',' :: (name ++ ('=' :: '"' :: (body2 ++ ['"', ']'])))) :=
    parse_value_string (fuel + 1) body
      (',' :: (name ++ ('=' :: '"' :: (body2 ++ ['"', ']'])))) hb
  rw [hv]
  have hfail : parse_list_value_rest (fuel + 2)
      (',' :: (name ++ ('=' :: '"' :: (body2 ++ ['"', ']']))))
      [JVal.str (String.mk body)] = none :=
    parse_list_value_rest_ident_fail fuel name
      ('=' :: '"' :: (body2 ++ ['"', ']'])) _ hne hid
  simp only [hfail]

theorem parse_list_two_values (fuel : Nat) (body body2 : List Char)
    (hb : ∀ c ∈ body, c ≠ '"' ∧ c ≠ '\\')
    (hb2 : ∀ c ∈ body2, c ≠ '"' ∧ c ≠ '\\') :
    parse_list (fuel + 3)
      ('[' :: ('"' :: (body ++ ('"' :: ',' :: '"' :: (body2 ++ ['"', ']'])))))
      = some ([JVal.str (String.mk body), JVal.str (String.mk body2)], []) := by
  rw [parse_list]
  simp only [List.head?_cons, List.tail_cons, eq_self_iff_true, if_true]
  rw [skipWs_cons_of_not_space (by decide : gAsciiIsspace '"' = false)]
  simp only [List.head?_cons]
  rw [if_neg (by decide)]
  rw [if_neg (by simp [lookahead_quote])]
  rw [show (body ++ ('"' :: ',' :: '"' :: (body2 ++ ['"', ']'])) : List Char)
      = body ++ ('"' :: (',' :: ('"' :: (body2 ++ ('"' :: [']']))))) from rfl]
  have hv : parse_value (fuel + 2)
      ('"' :: (body ++ ('"' :: (',' :: ('"' :: (body2 ++ ('"' :: [']'])))))))
      = some (JVal.str (String.mk body),
          ',' :: ('"' :: (body2 ++ ('"' :: [']'])))) :=
    parse_value_string (fuel + 1) body
      (',' :: ('"' :: (body2 ++ ('"' :: [']'])))) hb
  rw [hv]
  have hstep : parse_list_value_rest (fuel + 2)
      (',' :: ('"' :: (body2 ++ ('"' :: [']']))))
      [JVal.str (String.mk body)]
      = parse_list_value_rest (fuel + 1) [']']
          ([JVal.str (String.mk body)] ++ [JVal.str (String.mk body2)]) :=
    parse_list_value_rest_qstep fuel body2 [']'] _ hb2
  have hclose : parse_list_value_rest (fuel + 1) [']']
      ([JVal.str (String.mk body)] ++ [JVal.str (String.mk body2)])
      = some ([JVal.str (String.mk body)] ++ [JVal.str (String.mk body2)], []) :=
    parse_list_value_rest_close fuel _
  simp only [hstep, hclose]
  simp

/-! ## Exactly-once delivery lemmas -/

theorem take_one_length_of_ne_nil {α : Type} (l : List α) (h : l ≠ []) :
    (l.take 1).length = 1 := by
  cases l with
  | nil => exact absurd rfl h
  | cons a l => simp

theorem execLoop_ne_nil (ls : List String) (d : ExecuteData) (eof : Bool)
    (timer : Option Nat) (k : Nat) : (execLoop ls d eof timer k).1 ≠ [] := by
  induction ls generalizing d k with
  | nil =>
    rw [execLoop]
    split_ifs <;> simp
  | cons l ls ih =>
    rw [execLoop]
    split_ifs with h
    · simp
    · rcases hp : processExecLine d l with ⟨d1, c⟩
      cases c with
      | some v => simp
      | none => exact ih d1 (k + 1)

theorem execLoop_pending_false (ls : List String) (d : ExecuteData)
    (eof : Bool) (timer : Option Nat) (k : Nat) :
    (execLoop ls d eof timer k).2 = false := by
  induction ls generalizing d k with
  | nil =>
    rw [execLoop]
    split_ifs <;> rfl
  | cons l ls ih =>
    rw [execLoop]
    split_ifs with h
    · rfl
    · rcases hp : processExecLine d l with ⟨d1, c⟩
      cases c with
      | some v => rfl
      | none => exact ih d1 (k + 1)

theorem miLoop_ne_nil (ls : List String) (d : ExecuteMiData) (eof : Bool)
    (timer : Option Nat) (k : Nat) : (miLoop ls d eof timer k).1 ≠ [] := by
  induction ls generalizing d k with
  | nil =>
    rw [miLoop]
    split_ifs <;> simp
  | cons l ls ih =>
    rw [miLoop]
    split_ifs with h
    · simp
    · rcases hp : processMiLine d l with ⟨d1, c⟩
      cases c with
      | true => simp
      | false => exact ih d1 (k + 1)

theorem miLoop_pending_spec (ls : List String) (d : ExecuteMiData)
    (eof : Bool) (timer : Option Nat) (k : Nat) :
    (miLoop ls d eof timer k).2 = true →
    ∃ a, (miLoop ls d eof timer k).1
      = [a, .err .timeout "GDB command timed out"] := by
  induction ls generalizing d k with
  | nil =>
    rw [miLoop]
    split_ifs with h1 h2
    · intro h; exact absurd h (by simp)
    · intro _
      exact ⟨.err .commandFailed "GDB process exited unexpectedly", rfl⟩
    · intro h; exact absurd h (by simp)
  | cons l ls ih =>
    rw [miLoop]
    split_ifs with h
    · intro hh; exact absurd hh (by simp)
    · rcases hp : processMiLine d l with ⟨d1, c⟩
      cases c with
      | true => intro _; exact ⟨.ok d1.records, rfl⟩
      | false => exact ih d1 (k + 1)

/-! # Claims -/

/-- C7 counterexample: a list whose first element is a bare value
rejects a later `name=value` element — `["v",a="1"]` is a parse error —
so it is not true that every element may be either kind; the same
elements in the other order parse fine. -/
theorem C7_counterexample :
    parseMiList "[\"v\",a=\"1\"]" = none
    ∧ parseMiList "[a=\"1\",\"v\"]"
        = some ([JVal.obj [("a", JVal.str "1")], JVal.str "v"], []) :=
  ⟨rfl, rfl⟩

/-- C7 amended: `parse_list` distinguishes elements by scanning one
identifier ahead for `=`.  When the FIRST element is a `name=value`
result, each element may be a result (becoming a single-entry map) or a
bare value; when the first element is a bare value every further
element must be a bare value, and a later `name=value` element is a
parse error. -/
theorem C7_amended_list_elements :
    (∀ (name rest : List Char), (∀ c ∈ name, identChar c = true) →
      lookaheadIsResult (name ++ ('=' :: rest)) = true)
  ∧ (∀ rest : List Char, lookaheadIsResult ('"' :: rest) = false)
  ∧ (∀ (fuel : Nat) (name body : List Char), name ≠ [] →
      (∀ c ∈ name, identChar c = true) →
      (∀ c ∈ body, c ≠ '"' ∧ c ≠ '\\') →
      parse_list (fuel + 3)
        ('[' :: (name ++ ('=' :: '"' :: (body ++ ['"', ']']))))
        = some ([JVal.obj [(String.mk name, JVal.str (String.mk body))]], []))
  ∧ (∀ (fuel : Nat) (name body body2 : List Char), name ≠ [] →
      (∀ c ∈ name, identChar c = true) →
      (∀ c ∈ body, c ≠ '"' ∧ c ≠ '\\') →
      (∀ c ∈ body2, c ≠ '"' ∧ c ≠ '\\') →
      parse_list (fuel + 3)
        ('[' :: (name ++ ('=' :: '"' :: (body ++
          ('"' :: ',' :: '"' :: (body2 ++ ['"', ']']))))))
        = some ([JVal.obj [(String.mk name, JVal.str (String.mk body))],
                 JVal.str (String.mk body2)], []))
  ∧ (∀ (fuel : Nat) (body body2 : List Char),
      (∀ c ∈ body, c ≠ '"' ∧ c ≠ '\\') →
      (∀ c ∈ body2, c ≠ '"' ∧ c ≠ '\\') →
      parse_list (fuel + 3)
        ('[' :: ('"' :: (body ++ ('"' :: ',' :: '"' :: (body2 ++ ['"', ']'])))))
        = some ([JVal.str (String.mk body), JVal.str (String.mk body2)], []))
  ∧ (∀ (fuel : Nat) (body name body2 : List Char),
      (∀ c ∈ body, c ≠ '"' ∧ c ≠ '\\') →
      name ≠ [] → (∀ c ∈ name, identChar c = true) →
      parse_list (fuel + 3)
        ('[' :: ('"' :: (body ++ ('"' :: ',' ::
          (name ++ ('=' :: '"' :: (body2 ++ ['"', ']'])))))))
        = none) := by
  refine ⟨?_, lookahead_quote, ?_, ?_, ?_, ?_⟩
  · exact fun name rest hid => lookahead_name name rest hid
  · exact fun fuel name body hne hid hb =>
      parse_list_single_result fuel name body hne hid hb
  · exact fun fuel name body body2 hne hid hb hb2 =>
      parse_list_result_then_value fuel name body body2 hne hid hb hb2
  · exact fun fuel body body2 hb hb2 =>
      parse_list_two_values fuel body body2 hb hb2
  · exact fun fuel body name body2 hb hne hid =>
      parse_list_value_then_result_fails fuel body name body2 hb hne hid

/-- Witness for C7 amended at concrete inputs (name `a`, values `1` and
`v`, zero extra fuel). -/
theorem C7_amended_list_elements_witness :
    lookaheadIsResult (['a'] ++ ('=' :: ['"'])) = true
    ∧ parse_list 3 ('[' :: (['a'] ++ ('=' :: '"' :: (['1'] ++ ['"', ']']))))
        = some ([JVal.obj [(String.mk ['a'], JVal.str (String.mk ['1']))]], [])
    ∧ parse_list 3
        ('[' :: ('"' :: (['v'] ++ ('"' :: ',' ::
          (['a'] ++ ('=' :: '"' :: (['1'] ++ ['"', ']'])))))))
        = none := by
  refine ⟨?_, ?_, ?_⟩
  · exact C7_amended_list_elements.1 ['a'] ['"'] (by decide)
  · exact C7_amended_list_elements.2.2.1 0 ['a'] ['1'] (by decide) (by decide)
      (by decide)
  · exact C7_amended_list_elements.2.2.2.2.2 0 ['v'] ['a'] ['1'] (by decide)
      (by decide) (by decide)

/-- C6 counterexample: in the record-payload decoder `parse_c_string`,
the escape `\0` decodes to the character `0` (not a NUL byte), and the
unknown escape `\z` decodes to `z` with the backslash dropped (not the
literal backslash plus `z`) — refuting the claim that both decoders
treat `\0` and unknown escapes alike. -/
theorem C6_counterexample :
    parse_c_string "\"\\0\"".toList = some ("0", [])
    ∧ ("0" : String) ≠ String.mk [Char.ofNat 0]
    ∧ parse_c_string "\"\\z\"".toList = some ("z", [])
    ∧ ("z" : String) ≠ "\\z" := by
  refine ⟨rfl, by decide, rfl, by decide⟩

/-- C6 amended: the standalone unescape (`gdb_mi_parser_unescape_string`)
decodes `\n \t \r \\ \"`, decodes `\0` to a single NUL byte, and emits
any other escape as a literal backslash plus the character; the
record-payload decoder (`parse_c_string`) decodes the same five named
escapes but emits every other escaped character (including `0`) alone,
dropping the backslash. -/
theorem C6_amended_escapes :
    (∀ (acc : List Char) (c : Char) (rest : List Char),
      unescapeCore acc ('\\' :: c :: rest) = unescapeCore (acc ++ unescMap c) rest)
  ∧ (∀ (acc : List Char) (c : Char) (rest : List Char),
      parseCStringBody acc ('\\' :: c :: rest)
        = parseCStringBody (acc ++ [cstringMap c]) rest)
  ∧ (unescMap 'n' = ['\n'] ∧ unescMap 't' = ['\t'] ∧ unescMap 'r' = ['\r']
      ∧ unescMap '\\' = ['\\'] ∧ unescMap '"' = ['"']
      ∧ unescMap '0' = [Char.ofNat 0])
  ∧ (cstringMap 'n' = '\n' ∧ cstringMap 't' = '\t' ∧ cstringMap 'r' = '\r'
      ∧ cstringMap '\\' = '\\' ∧ cstringMap '"' = '"' ∧ cstringMap '0' = '0')
  ∧ (∀ c : Char, c ≠ 'n' → c ≠ 't' → c ≠ 'r' → c ≠ '\\' → c ≠ '"' → c ≠ '0' →
      unescMap c = ['\\', c])
  ∧ (∀ c : Char, c ≠ 'n' → c ≠ 't' → c ≠ 'r' → c ≠ '\\' → c ≠ '"' →
      cstringMap c = c)
  ∧ gdb_mi_parser_unescape_string "\"a\\nb\\tc\\rd\\\\e\\\"f\\0g\\zh\""
      = String.mk ("a\nb\tc\rd\\e\"f".toList ++ Char.ofNat 0 :: "g\\zh".toList) := by
  refine ⟨?_, ?_, by decide, by decide, ?_, ?_, rfl⟩
  · intro acc c rest
    simp only [unescapeCore, unescMap]
    split_ifs <;> simp_all
  · intro acc c rest
    simp only [parseCStringBody, cstringMap]
    split_ifs <;> simp_all
  · intro c h1 h2 h3 h4 h5 h6
    simp [unescMap, h1, h2, h3, h4, h5, h6]
  · intro c h1 h2 h3 h4 h5
    simp [cstringMap, h1, h2, h3, h4, h5]

/-- Witness for C6 amended at concrete inputs: the step equations and
the unknown-escape tables applied at the character `q`. -/
theorem C6_amended_escapes_witness :
    unescapeCore [] ('\\' :: 'q' :: []) = unescapeCore ([] ++ unescMap 'q') []
    ∧ parseCStringBody [] ('\\' :: 'q' :: [])
        = parseCStringBody ([] ++ [cstringMap 'q']) []
    ∧ unescMap 'q' = ['\\', 'q']
    ∧ cstringMap 'q' = 'q' := by
  refine ⟨?_, ?_, ?_, ?_⟩
  · exact C6_amended_escapes.1 [] 'q' []
  · exact C6_amended_escapes.2.1 [] 'q' []
  · exact C6_amended_escapes.2.2.2.2.1 'q' (by decide) (by decide) (by decide)
      (by decide) (by decide) (by decide)
  · exact C6_amended_escapes.2.2.2.2.2.1 'q' (by decide) (by decide) (by decide)
      (by decide) (by decide)

/-- C1: only a Prompt or `^exit` line can complete the read loop, and
such a line does not complete the round-trip when a `^running` or
`*running` line has been seen with no `*stopped` line yet — the loop
keeps reading; once `*stopped` has been seen (or no running marker ever
appeared), the Prompt/`^exit` line completes the command. -/
theorem C1_running_gates_completion :
    (∀ (d : ExecuteData) (l : String),
      (gdb_mi_parser_is_prompt l || gStrHasPre l "^exit") = false →
      (processExecLine d l).2 = none)
  ∧ (∀ (pre : List String) (l : String) (rest : List String),
      (runExecLines {} pre).2 = none →
      (gdb_mi_parser_is_prompt l || gStrHasPre l "^exit") = true →
      ((seenRunning (pre ++ [l]) && !seenStopped (pre ++ [l])) = true →
        runExecLines {} (pre ++ l :: rest)
          = runExecLines ((pre ++ [l]).foldl updateExecData {}) rest)
      ∧ ((seenRunning (pre ++ [l]) && !seenStopped (pre ++ [l])) = false →
        (runExecLines {} (pre ++ l :: rest)).2
          = some (execCompletion ((pre ++ [l]).foldl updateExecData {}), rest))) := by
  constructor
  · exact fun d l h => processExecLine_none d l h
  · intro pre l rest hnone hterm
    have hrun := runExecLines_append pre {} hnone (l :: rest)
    have hR : (updateExecData (pre.foldl updateExecData {}) l).saw_running
        = seenRunning (pre ++ [l]) := by
      rw [updateExecData_saw_running, foldl_updateExecData_saw_running]
      simp [seenRunning, List.any_append]
    have hS : (updateExecData (pre.foldl updateExecData {}) l).saw_stopped
        = seenStopped (pre ++ [l]) := by
      rw [updateExecData_saw_stopped, foldl_updateExecData_saw_stopped]
      simp [seenStopped, List.any_append]
    have hfold : updateExecData (pre.foldl updateExecData {}) l
        = (pre ++ [l]).foldl updateExecData {} := by
      rw [List.foldl_append]
      rfl
    constructor
    · intro hflags
      have h2 : (processExecLine (pre.foldl updateExecData {}) l).2 = none := by
        rw [processExecLine_term _ l hterm, hR, hS, if_pos hflags]
      rw [hrun, runExecLines_cons]
      cases hp : processExecLine (pre.foldl updateExecData {}) l with
      | mk d2 oc =>
        have hd2 : d2 = updateExecData (pre.foldl updateExecData {}) l := by
          have := processExecLine_fst (pre.foldl updateExecData {}) l
          rw [hp] at this
          exact this
        rw [hp] at h2
        simp only at h2
        subst h2
        simp only
        rw [hd2, hfold]
    · intro hflags
      have h2 : (processExecLine (pre.foldl updateExecData {}) l).2
          = some (execCompletion
              (updateExecData (pre.foldl updateExecData {}) l)) := by
        rw [processExecLine_term _ l hterm, hR, hS, if_neg (by simp [hflags])]
      rw [hrun, runExecLines_cons]
      cases hp : processExecLine (pre.foldl updateExecData {}) l with
      | mk d2 oc =>
        rw [hp] at h2
        simp only at h2
        subst h2
        simp only
        rw [hfold]

/-- Witness for C1 at the spec's `continue` scenario: after `^running`
a prompt does not complete and reading continues; after `*stopped` the
next prompt completes the round-trip. -/
theorem C1_running_gates_completion_witness :
    runExecLines {}
        (["^running"] ++ "(gdb)" :: ["*stopped,reason=\"breakpoint-hit\"", "(gdb)"])
      = runExecLines ((["^running"] ++ ["(gdb)"]).foldl updateExecData {})
          ["*stopped,reason=\"breakpoint-hit\"", "(gdb)"]
    ∧ (runExecLines {}
        (["^running", "(gdb)", "*stopped,reason=\"breakpoint-hit\""]
          ++ "(gdb)" :: [])).2
      = some (execCompletion
          ((["^running", "(gdb)", "*stopped,reason=\"breakpoint-hit\""]
            ++ ["(gdb)"]).foldl updateExecData {}), []) := by
  constructor
  · exact (C1_running_gates_completion.2 ["^running"] "(gdb)"
      ["*stopped,reason=\"breakpoint-hit\"", "(gdb)"] (by rfl) (by rfl)).1 (by rfl)
  · exact (C1_running_gates_completion.2
      ["^running", "(gdb)", "*stopped,reason=\"breakpoint-hit\""] "(gdb)" []
      (by rfl) (by rfl)).2 (by rfl)

/-- C3: when the read loop completes, the completion is a CommandFailed
error carrying the stored message of the last `^error` line exactly
when some consumed line started with `^error`; otherwise it is the
success outcome carrying the accumulated raw text — never both. -/
theorem C3_error_wins :
    ∀ (lines : List String) (d' : ExecuteData) (c : Outcome String)
      (rest : List String),
    runExecLines {} lines = (d', some (c, rest)) →
    ∃ consumed, lines = consumed ++ rest
      ∧ (seenError consumed = true →
          c = .err .commandFailed ((lastErrorMessage consumed).getD ""))
      ∧ (seenError consumed = false → c = .ok (renderOutput consumed)) := by
  intro lines d' c rest h
  obtain ⟨consumed, hsplit, hstate, hcomp⟩ := runExecLines_some_spec lines {} d' c rest h
  refine ⟨consumed, hsplit, ?_, ?_⟩
  · intro herr
    have hE : d'.saw_error = true := by
      rw [hstate, foldl_updateExecData_saw_error]
      simp [herr]
    have hM : d'.error_message = lastErrorMessage consumed := by
      rw [hstate, foldl_updateExecData_error_message]
      cases lastErrorMessage consumed <;> rfl
    rw [hcomp]
    unfold execCompletion
    rw [hE, if_pos rfl, hM]
  · intro herr
    have hE : d'.saw_error = false := by
      rw [hstate, foldl_updateExecData_saw_error]
      simp [herr]
    have hO : d'.output = consumed := by
      rw [hstate, foldl_updateExecData_output]
      rfl
    rw [hcomp]
    unfold execCompletion
    rw [hE, hO]
    simp

/-- Witness for C3 at concrete runs: an `^error,msg="No symbol"` line
makes the round-trip complete as CommandFailed "No symbol". -/
theorem C3_error_wins_witness :
    ∃ consumed, (["^error,msg=\"No symbol\"", "(gdb)"] : List String)
        = consumed ++ []
      ∧ (seenError consumed = true →
          (Outcome.err GdbErrorCode.commandFailed "No symbol" : Outcome String)
            = .err .commandFailed ((lastErrorMessage consumed).getD ""))
      ∧ (seenError consumed = false →
          (Outcome.err GdbErrorCode.commandFailed "No symbol" : Outcome String)
            = .ok (renderOutput consumed)) := by
  exact C3_error_wins ["^error,msg=\"No symbol\"", "(gdb)"]
    { output := ["^error,msg=\"No symbol\"", "(gdb)"], saw_error := true,
      error_message := some "No symbol", saw_running := false,
      saw_stopped := false, console := [] }
    (.err .commandFailed "No symbol") [] (by rfl)

/-- C10: a `^error` line that parses but exposes no `msg` member stores
the fallback "GDB command failed"; a `^error` line that fails to parse
stores "Unknown error"; either way the command completes with
CommandFailed carrying that stored message. -/
theorem C10_error_message_fallbacks :
    (∀ l : String, gdb_mi_parser_parse_line l = none →
      storedErrorMessage l = "Unknown error")
  ∧ (∀ (l : String) (r : GdbMiRecord), gdb_mi_parser_parse_line l = some r →
      gdb_mi_record_get_error_message r = none →
      storedErrorMessage l = "GDB command failed")
  ∧ (gdb_mi_parser_parse_line "^error").bind gdb_mi_record_get_error_message = none
  ∧ (runExecLines {} ["^error", "(gdb)"]).2
      = some (.err .commandFailed "GDB command failed", [])
  ∧ gdb_mi_parser_parse_line "^error,msg" = none
  ∧ (runExecLines {} ["^error,msg", "(gdb)"]).2
      = some (.err .commandFailed "Unknown error", []) := by
  refine ⟨?_, ?_, rfl, rfl, rfl, rfl⟩
  · intro l h
    simp [storedErrorMessage, h]
  · intro l r h1 h2
    simp [storedErrorMessage, h1, h2]

/-- Witness for C10 at concrete lines: `^error` parses with no message,
`^error,msg` fails to parse. -/
theorem C10_error_message_fallbacks_witness :
    storedErrorMessage "^error,msg" = "Unknown error"
    ∧ storedErrorMessage "^error" = "GDB command failed" := by
  constructor
  · exact C10_error_message_fallbacks.1 "^error,msg" (by rfl)
  · exact C10_error_message_fallbacks.2.1 "^error"
      { type := .result, result_class := .error, class_name := some "error",
        results := some [], stream_content := none, token := -1 }
      (by rfl) (by rfl)

/-- C4: command submission (both `gdb_session_execute_async` and
`gdb_session_execute_mi_async`) is admitted exactly in the Ready and
Stopped states; in every other state — Running in particular — the
pipelines return synchronously with the single SessionNotReady error and
never allocate the in-flight record or its timeout. -/
theorem C4_admission_states :
    ∀ st : GdbSessionState,
      (gdb_session_is_ready st = true ↔ (st = .ready ∨ st = .stopped))
    ∧ (st = .running → gdb_session_is_ready st = false)
    ∧ (∀ s : ExecScript, s.state = st →
        (gdb_session_is_ready st = false →
           (execDrive s).returnAttempts
             = [.err .sessionNotReady "Session not ready for commands"]
           ∧ (execDrive s).timerScheduled = false
           ∧ (miDrive s).returnAttempts
             = [.err .sessionNotReady "Session not ready for commands"]
           ∧ (miDrive s).timerScheduled = false)
        ∧ (gdb_session_is_ready st = true →
           (execDrive s).timerScheduled = true
           ∧ (miDrive s).timerScheduled = true)) := by
  intro st
  refine ⟨by cases st <;> simp [gdb_session_is_ready], ?_, ?_⟩
  · intro h; subst h; rfl
  · intro s hs
    subst hs
    constructor
    · intro hnot
      simp [execDrive, miDrive, hnot]
    · intro hyes
      unfold execDrive miDrive
      rw [hyes]
      simp only [Bool.not_true, Bool.false_eq_true, if_false]
      constructor
      · by_cases hw : s.writeOk <;> simp [hw]
      · by_cases hw : s.writeOk <;> simp [hw]

/-- Witness for C4 at concrete inputs: a Running session rejects a
command with SessionNotReady, and Ready is an admitted state. -/
theorem C4_admission_states_witness :
    (execDrive { state := .running, writeOk := true, lines := [], eof := false,
                 timerAfterReads := none }).returnAttempts
      = [.err .sessionNotReady "Session not ready for commands"]
    ∧ gdb_session_is_ready .ready = true := by
  constructor
  · exact (((C4_admission_states .running).2.2
      { state := .running, writeOk := true, lines := [], eof := false,
        timerAfterReads := none } rfl).1 (by decide)).1
  · exact (C4_admission_states .ready).1.mpr (Or.inl rfl)

/-- C9: the sync bridge installs a guard timeout of the session's
command timeout plus 1000 ms on its call-local context; on loop exit it
returns the guard Timeout error exactly when the pipeline callback set
neither an output nor an error, and otherwise propagates the pipeline's
outcome unchanged. -/
theorem C9_sync_bridge :
    ∀ (session : GdbSession) (command : String)
      (pipeline : Option (Outcome String)),
      guardTimeoutInterval session = session.timeout_ms + 1000
    ∧ (pipeline = none →
        gdb_tools_execute_command_sync command pipeline
          = .err .timeout ("GDB command timed out: " ++ command))
    ∧ (∀ o, pipeline = some o →
        gdb_tools_execute_command_sync command pipeline = o) := by
  intro session command pipeline
  refine ⟨rfl, ?_, ?_⟩
  · intro h; subst h; rfl
  · intro o h; subst h
    cases o <;> rfl

theorem find?_map_insert (k : String) (v : GdbSession) :
    ∀ (t : List (String × GdbSession)), t.any (fun p => p.1 = k) = true →
    (t.map (fun p => if p.1 = k then (k, v) else p)).find? (fun p => p.1 = k)
      = some (k, v) := by
  intro t
  induction t with
  | nil => intro h; simp at h
  | cons a t ih =>
    intro h
    by_cases hk : a.1 = k
    · simp only [List.map_cons, if_pos hk]
      exact List.find?_cons_of_pos _ (by simp)
    · simp only [List.any_cons, Bool.or_eq_true] at h
      have ht : t.any (fun p => p.1 = k) = true := by
        rcases h with h | h
        · exact absurd (of_decide_eq_true h) hk
        · exact h
      simp only [List.map_cons, if_neg hk]
      rw [List.find?_cons_of_neg _ (by simpa using hk)]
      exact ih ht

theorem find?_append_self (k : String) (v : GdbSession) :
    ∀ (t : List (String × GdbSession)), t.any (fun p => p.1 = k) = false →
    (t ++ [(k, v)]).find? (fun p => p.1 = k) = some (k, v) := by
  intro t
  induction t with
  | nil => intro _; simp
  | cons a t ih =>
    intro h
    simp only [List.any_cons, Bool.or_eq_false_iff] at h
    rw [List.cons_append, List.find?_cons_of_neg _ (by simpa using h.1)]
    exact ih h.2

theorem tableLookup_tableInsert_self (t : List (String × GdbSession))
    (k : String) (v : GdbSession) :
    tableLookup (tableInsert t k v) k = some v := by
  unfold tableInsert tableLookup
  split
  · rename_i h
    rw [find?_map_insert k v t h]
    rfl
  · rename_i h
    rw [find?_append_self k v t (Bool.eq_false_iff.mpr h)]
    rfl

theorem tableLookup_tableRemove_self (t : List (String × GdbSession)) (k : String) :
    tableLookup (tableRemove t k) k = none := by
  unfold tableRemove tableLookup
  have : (t.filter (fun p => p.1 ≠ k)).find? (fun p => p.1 = k) = none := by
    rw [List.find?_eq_none]
    intro p hp
    have := List.of_mem_filter hp
    simpa using this
  rw [this]
  rfl

/-- C5: the registry round-trip — a freshly created session is
retrievable under its id; after a successful remove the id resolves to
nothing; removing an absent id reports false and leaves the registry
unchanged. -/
theorem C5_registry_roundtrip :
    (∀ (m : GdbSessionManager) (gp wd : Option String) (now : Int),
      gdb_session_manager_get_session
        (gdb_session_manager_create_session m gp wd now).1
        (gdb_session_manager_create_session m gp wd now).2.session_id
      = some (gdb_session_manager_create_session m gp wd now).2)
  ∧ (∀ (m : GdbSessionManager) (id : String),
      (gdb_session_manager_remove_session m id).2 = true →
      gdb_session_manager_get_session
        (gdb_session_manager_remove_session m id).1 id = none)
  ∧ (∀ (m : GdbSessionManager) (id : String),
      gdb_session_manager_get_session m id = none →
      (gdb_session_manager_remove_session m id).1 = m
      ∧ (gdb_session_manager_remove_session m id).2 = false) := by
  refine ⟨?_, ?_, ?_⟩
  · intro m gp wd now
    unfold gdb_session_manager_create_session gdb_session_manager_get_session
      gdb_session_new
    exact tableLookup_tableInsert_self _ _ _
  · intro m id _
    unfold gdb_session_manager_remove_session gdb_session_manager_get_session at *
    cases h : tableLookup m.sessions id with
    | none => simp [h]
    | some s => simp [h, tableLookup_tableRemove_self]
  · intro m id hnone
    unfold gdb_session_manager_get_session at hnone
    unfold gdb_session_manager_remove_session
    simp [hnone]

/-- Witness for C5 at concrete inputs: create then remove on an
initially empty registry, and removing from the empty registry. -/
theorem C5_registry_roundtrip_witness :
    gdb_session_manager_get_session
      (gdb_session_manager_remove_session
        (gdb_session_manager_create_session {} none none 0).1 "0-0").1 "0-0" = none
    ∧ (gdb_session_manager_remove_session ({} : GdbSessionManager) "missing").1
        = ({} : GdbSessionManager)
    ∧ (gdb_session_manager_remove_session ({} : GdbSessionManager) "missing").2
        = false := by
  refine ⟨?_, ?_, ?_⟩
  · exact C5_registry_roundtrip.2.1
      (gdb_session_manager_create_session {} none none 0).1 "0-0" (by rfl)
  · exact (C5_registry_roundtrip.2.2 {} "missing" (by rfl)).1
  · exact (C5_registry_roundtrip.2.2 {} "missing" (by rfl)).2

/-- C8 counterexample: the environment value `-5` is a negative integer,
yet the delay used is 4294967291 ms (the 32-bit truncation of the
strtoull wraparound), not the 2000 ms default the claim requires. -/
theorem C8_counterexample :
    get_post_command_delay_ms (some "-5") = 4294967291
    ∧ get_post_command_delay_ms (some "-5") ≠ DEFAULT_POST_COMMAND_DELAY_MS := by
  constructor
  · rfl
  · intro h
    have h1 : get_post_command_delay_ms (some "-5") = 4294967291 := rfl
    rw [h1] at h
    exact absurd h (by decide)

/-- C8 amended: the settle delay is 2000 ms by default;
`GDB_MCP_POST_COMMAND_DELAY_MS` is converted with unsigned 64-bit
strtoull semantics and truncated to 32 bits; a nonzero result overrides
the default and a zero result falls back.  Non-numeric strings parse to
0 and fall back; a pure decimal numeral yields its value; but a
negative integer wraps modulo 2^64 instead of falling back. -/
theorem C8_amended_delay :
    (get_post_command_delay_ms none = DEFAULT_POST_COMMAND_DELAY_MS)
  ∧ (∀ v, g_ascii_strtoull v % 2 ^ 32 = 0 →
      get_post_command_delay_ms (some v) = DEFAULT_POST_COMMAND_DELAY_MS)
  ∧ (∀ v, 0 < g_ascii_strtoull v % 2 ^ 32 →
      get_post_command_delay_ms (some v) = g_ascii_strtoull v % 2 ^ 32)
  ∧ (∀ (c : Char) (r : List Char), gAsciiIsspace c = false →
      gAsciiIsdigit c = false → c ≠ '-' → c ≠ '+' →
      g_ascii_strtoull (String.mk (c :: r)) = 0)
  ∧ (∀ ds : List Char, ds ≠ [] → (∀ c ∈ ds, gAsciiIsdigit c = true) →
      digitFold ds < 2 ^ 64 →
      g_ascii_strtoull (String.mk ds) = digitFold ds)
  ∧ (∀ ds : List Char, ds ≠ [] → (∀ c ∈ ds, gAsciiIsdigit c = true) →
      0 < digitFold ds → digitFold ds < 2 ^ 64 →
      g_ascii_strtoull (String.mk ('-' :: ds)) = 2 ^ 64 - digitFold ds) := by
  refine ⟨rfl, ?_, ?_, ?_, ?_, ?_⟩
  · intro v h
    have h' : g_ascii_strtoull v % 4294967296 = 0 := h
    simp only [get_post_command_delay_ms]
    split_ifs with hif
    · have hif' : 0 < g_ascii_strtoull v % 4294967296 := hif
      omega
    · rfl
  · intro v h
    simp only [get_post_command_delay_ms]
    split_ifs with hif
    · rfl
    · exact absurd h hif
  · intro c r hsp hdig hminus hplus
    have htl : (String.mk (c :: r)).toList = c :: r := rfl
    have hdw : List.dropWhile gAsciiIsspace (c :: r) = c :: r := by
      rw [List.dropWhile_cons, if_neg (by simp [hsp])]
    have htw : List.takeWhile gAsciiIsdigit (c :: r) = [] := by
      rw [List.takeWhile_cons, if_neg (by simp [hdig])]
    have hsign : (decide ((c :: r).head? = some '-')
        || decide ((c :: r).head? = some '+')) = false := by
      simp [hminus, hplus]
    simp only [g_ascii_strtoull, htl, hdw, hsign, Bool.false_eq_true, if_false, htw]
    rw [if_neg (by norm_num [digitFold])]
    rw [if_neg (by simp [hminus])]
    rfl
  · intro ds hne hall hlt
    rcases ds with _ | ⟨d, tl⟩
    · exact absurd rfl hne
    have hd : gAsciiIsdigit d = true := hall d (by simp)
    have hsp : gAsciiIsspace d = false := not_space_of_isdigit hd
    have hminus : d ≠ '-' := by rintro rfl; exact absurd hd (by decide)
    have hplus : d ≠ '+' := by rintro rfl; exact absurd hd (by decide)
    have htl : (String.mk (d :: tl)).toList = d :: tl := rfl
    have hdw : List.dropWhile gAsciiIsspace (d :: tl) = d :: tl := by
      rw [List.dropWhile_cons, if_neg (by simp [hsp])]
    have hsign : (decide ((d :: tl).head? = some '-')
        || decide ((d :: tl).head? = some '+')) = false := by
      simp [hminus, hplus]
    simp only [g_ascii_strtoull, htl, hdw, hsign, Bool.false_eq_true, if_false,
      takeWhile_eq_self_of_all hall]
    rw [if_neg (by omega)]
    rw [if_neg (by simp [hminus])]
  · intro ds hne hall hpos hlt
    have htl : (String.mk ('-' :: ds)).toList = '-' :: ds := rfl
    have hdw : List.dropWhile gAsciiIsspace ('-' :: ds) = '-' :: ds := by
      rw [List.dropWhile_cons, if_neg (by decide)]
    have hsign : (decide (('-' :: ds).head? = some '-')
        || decide (('-' :: ds).head? = some '+')) = true := by
      simp
    simp only [g_ascii_strtoull, htl, hdw, hsign, eq_self_iff_true, if_true,
      List.tail_cons, takeWhile_eq_self_of_all hall]
    rw [if_neg (by omega)]
    rw [if_pos (by simp)]
    exact Nat.mod_eq_of_lt (by omega)

/-- Witness for C8 amended at concrete inputs: "0" and a non-numeric
string fall back to the default; "500" yields 500; "-5" wraps. -/
theorem C8_amended_delay_witness :
    get_post_command_delay_ms (some "0") = DEFAULT_POST_COMMAND_DELAY_MS
    ∧ get_post_command_delay_ms (some "500") = 500
    ∧ g_ascii_strtoull (String.mk ['x']) = 0
    ∧ g_ascii_strtoull (String.mk ['-', '5']) = 2 ^ 64 - 5 := by
  refine ⟨?_, ?_, ?_, ?_⟩
  · exact C8_amended_delay.2.1 "0" (by decide)
  · have := C8_amended_delay.2.2.1 "500" (by decide)
    rw [this]
    rfl
  · exact C8_amended_delay.2.2.2.1 'x' [] (by decide) (by decide)
      (by decide) (by decide)
  · have := C8_amended_delay.2.2.2.2.2 ['5'] (by decide)
      (by intro c hc; simp at hc; subst hc; decide) (by decide) (by decide)
    simpa [digitFold] using this

/-- Witness for C9 at concrete inputs: the guard-fired case yields
Timeout, and a completed pipeline result is propagated unchanged. -/
theorem C9_sync_bridge_witness :
    gdb_tools_execute_command_sync "info registers" none
      = .err .timeout "GDB command timed out: info registers"
    ∧ gdb_tools_execute_command_sync "print x"
        (some (.ok "$1 = 42\n(gdb)\n")) = .ok "$1 = 42\n(gdb)\n" := by
  constructor
  · exact (C9_sync_bridge ⟨"s", "gdb", none, .ready, 10000⟩
      "info registers" none).2.1 rfl
  · exact (C9_sync_bridge ⟨"s", "gdb", none, .ready, 10000⟩
      "print x" (some (.ok "$1 = 42\n(gdb)\n"))).2.2
      (.ok "$1 = 42\n(gdb)\n") rfl

/-- C2 counterexample: on a successful `^done` round-trip through
`gdb_session_execute_mi_async` the command-timeout source is still
attached when the completion is returned (the code never destroys it,
gdb-session.c:1258-1267), and it later fires as a second return
attempt - two attempts on one task.  The execute pipeline on the same
script has destroyed its timer before returning. -/
theorem C2_counterexample :
    (miDrive { state := .ready, writeOk := true, lines := ["^done"],
               eof := false, timerAfterReads := none }).timerPendingAtFirstReturn
      = true
    ∧ (miDrive { state := .ready, writeOk := true, lines := ["^done"],
                 eof := false, timerAfterReads := none }).returnAttempts.length
      = 2
    ∧ (execDrive { state := .ready, writeOk := true, lines := ["^done"],
                   eof := false,
                   timerAfterReads := none }).timerPendingAtFirstReturn
      = false :=
  ⟨rfl, rfl, rfl⟩

/-- C2 amended: exactly one completion reaches the caller on every
path - but only because GTask's single-return guard discards extras,
not because the timers are cancelled.  `gdb_session_execute_async`
destroys its timeout source before every return, so its single attempt
is also the only one made; `gdb_session_execute_mi_async` never cancels
its timeout source, and whenever that timer is still pending at the
first return it fires later as exactly one more (discarded) Timeout
return attempt. -/
theorem C2_amended_exactly_once :
    (∀ s : ExecScript,
        (execDrive s).delivered.length = 1
        ∧ (execDrive s).timerPendingAtFirstReturn = false)
    ∧ (∀ s : ExecScript, (miDrive s).delivered.length = 1)
    ∧ (∀ s : ExecScript, (miDrive s).timerPendingAtFirstReturn = true →
        ∃ a, (miDrive s).returnAttempts
          = [a, .err .timeout "GDB command timed out"]) := by
  refine ⟨?_, ?_, ?_⟩
  · intro s
    unfold execDrive
    split_ifs with h1 h2
    · exact ⟨rfl, rfl⟩
    · exact ⟨rfl, rfl⟩
    · rcases he : execLoop s.lines {} s.eof s.timerAfterReads 0 with ⟨attempts, pending⟩
      constructor
      · show (attempts.take 1).length = 1
        have := execLoop_ne_nil s.lines {} s.eof s.timerAfterReads 0
        rw [he] at this
        exact take_one_length_of_ne_nil attempts this
      · show pending = false
        have := execLoop_pending_false s.lines {} s.eof s.timerAfterReads 0
        rw [he] at this
        exact this
  · intro s
    unfold miDrive
    split_ifs with h1 h2
    · rfl
    · rfl
    · rcases he : miLoop s.lines {} s.eof s.timerAfterReads 0 with ⟨attempts, pending⟩
      show (attempts.take 1).length = 1
      have := miLoop_ne_nil s.lines {} s.eof s.timerAfterReads 0
      rw [he] at this
      exact take_one_length_of_ne_nil attempts this
  · intro s
    unfold miDrive
    split_ifs with h1 h2
    · intro h; exact absurd h (by simp)
    · intro _
      exact ⟨.ioError "write failed", rfl⟩
    · rcases he : miLoop s.lines {} s.eof s.timerAfterReads 0 with ⟨attempts, pending⟩
      intro hpend
      have := miLoop_pending_spec s.lines {} s.eof s.timerAfterReads 0
      rw [he] at this
      exact this hpend

/-- Witness for C2 amended at a concrete `^done` script. -/
theorem C2_amended_exactly_once_witness :
    (execDrive { state := .ready, writeOk := true, lines := ["^done"],
                 eof := false, timerAfterReads := none }).delivered.length = 1
    ∧ (miDrive { state := .ready, writeOk := true, lines := ["^done"],
                 eof := false, timerAfterReads := none }).delivered.length = 1
    ∧ ∃ a, (miDrive { state := .ready, writeOk := true, lines := ["^done"],
                      eof := false, timerAfterReads := none }).returnAttempts
        = [a, .err .timeout "GDB command timed out"] := by
  refine ⟨?_, ?_, ?_⟩
  · exact (C2_amended_exactly_once.1 _).1
  · exact C2_amended_exactly_once.2.1 _
  · exact C2_amended_exactly_once.2.2
      { state := .ready, writeOk := true, lines := ["^done"],
        eof := false, timerAfterReads := none } (by rfl)

end McpGdb
